import Mathlib

/-!
# Verification of the reservation client (`src/frontend/script.js`)

A shallow embedding of the browser-side CRUD client for the resort-reservation
API, together with proofs about its behaviour.  JavaScript strings are modelled
as Lean `String`/`List Char`, JavaScript numbers that the program uses as
integers are modelled as `Int`/`Nat`, DOM state is passed explicitly, and
`fetch`/`confirm`/`DOMParser`/`JSON.parse` results are supplied through
explicit environment values.
-/

namespace ReservationClient

/-! ## JavaScript string primitives used by the script -/

/-- Global single-character replacement: models `str.replace(/c/g, r)`. -/
def replaceAllChar (c : Char) (r : List Char) : List Char → List Char
  | [] => []
  | d :: ds => (if d = c then r else [d]) ++ replaceAllChar c r ds

/-- `escapeXml` (script.js 243–251): `unsafe.toString().replace(/&/g,'&amp;')
.replace(/</g,'&lt;').replace(/>/g,'&gt;').replace(/"/g,'&quot;')
.replace(/'/g,'&apos;')`, with falsy (empty) input returning `''`. -/
def escapeXml (s : String) : String :=
  if s = "" then "" else
  ⟨replaceAllChar '\'' "&apos;".data
    (replaceAllChar '"' "&quot;".data
      (replaceAllChar '>' "&gt;".data
        (replaceAllChar '<' "&lt;".data
          (replaceAllChar '&' "&amp;".data s.data))))⟩

/-- Per-character view of the five sequential replacements of `escapeXml`. -/
def escChar (c : Char) : List Char :=
  if c = '&' then "&amp;".data
  else if c = '<' then "&lt;".data
  else if c = '>' then "&gt;".data
  else if c = '"' then "&quot;".data
  else if c = '\'' then "&apos;".data
  else [c]

lemma replaceAllChar_append (c : Char) (r l1 l2 : List Char) :
    replaceAllChar c r (l1 ++ l2) = replaceAllChar c r l1 ++ replaceAllChar c r l2 := by
  induction l1 with
  | nil => simp [replaceAllChar]
  | cons d ds ih => simp [replaceAllChar, ih]

/-- The five sequential global replacements act character-by-character:
`escapeXml` is the concatenation of `escChar` over the input. -/
lemma escapeXml_data (s : String) : (escapeXml s).data = s.data.flatMap escChar := by
  unfold escapeXml
  by_cases h : s = ""
  · simp [h]
  · simp only [h, if_false]
    generalize s.data = l
    induction l with
    | nil => simp [replaceAllChar]
    | cons d ds ih =>
        simp only [replaceAllChar, replaceAllChar_append, List.flatMap_cons]
        rw [← ih]
        congr 1
        by_cases h1 : d = '&'
        · subst h1; simp [escChar, replaceAllChar]
        · by_cases h2 : d = '<'
          · subst h2; simp [escChar, replaceAllChar]
          · by_cases h3 : d = '>'
            · subst h3; simp [escChar, replaceAllChar]
            · by_cases h4 : d = '"'
              · subst h4; simp [escChar, replaceAllChar]
              · by_cases h5 : d = '\''
                · subst h5; simp [escChar, replaceAllChar]
                · simp [escChar, replaceAllChar, h1, h2, h3, h4, h5]

lemma escChar_no_raw {d x : Char} (hx : x ∈ escChar d) :
    x ≠ '<' ∧ x ≠ '>' ∧ x ≠ '"' ∧ x ≠ '\'' := by
  unfold escChar at hx
  by_cases h1 : d = '&'
  · simp [h1] at hx; rcases hx with rfl | rfl | rfl | rfl | rfl <;> decide
  · by_cases h2 : d = '<'
    · simp [h1, h2] at hx; rcases hx with rfl | rfl | rfl | rfl <;> decide
    · by_cases h3 : d = '>'
      · simp [h1, h2, h3] at hx; rcases hx with rfl | rfl | rfl | rfl <;> decide
      · by_cases h4 : d = '"'
        · simp [h1, h2, h3, h4] at hx
          rcases hx with rfl | rfl | rfl | rfl | rfl | rfl <;> decide
        · by_cases h5 : d = '\''
          · simp [h1, h2, h3, h4, h5] at hx
            rcases hx with rfl | rfl | rfl | rfl | rfl | rfl <;> decide
          · simp [h1, h2, h3, h4, h5] at hx
            subst hx
            exact ⟨h2, h3, h4, h5⟩

lemma flatMap_escChar_no_raw {l : List Char} {x : Char} (hx : x ∈ l.flatMap escChar) :
    x ≠ '<' ∧ x ≠ '>' ∧ x ≠ '"' ∧ x ≠ '\'' := by
  obtain ⟨d, _, hd⟩ := List.mem_flatMap.mp hx
  exact escChar_no_raw hd

/-- Scanner checking that every `&` in a character list begins one of the five
XML entities `&amp; &lt; &gt; &quot; &apos;`. -/
def ampEntitiesOnly : List Char → Bool
  | [] => true
  | c :: rest =>
    if c = '&' then
      if "amp;".data.isPrefixOf rest then ampEntitiesOnly (rest.drop 4)
      else if "lt;".data.isPrefixOf rest then ampEntitiesOnly (rest.drop 3)
      else if "gt;".data.isPrefixOf rest then ampEntitiesOnly (rest.drop 3)
      else if "quot;".data.isPrefixOf rest then ampEntitiesOnly (rest.drop 5)
      else if "apos;".data.isPrefixOf rest then ampEntitiesOnly (rest.drop 5)
      else false
    else ampEntitiesOnly rest
termination_by l => l.length
decreasing_by
  all_goals simp [List.length_drop]
  all_goals omega

lemma ampEntitiesOnly_cons_ne {c : Char} (hc : c ≠ '&') (rest : List Char) :
    ampEntitiesOnly (c :: rest) = ampEntitiesOnly rest := by
  rw [ampEntitiesOnly]
  simp [hc]

lemma ampEntitiesOnly_amp (rest : List Char) :
    ampEntitiesOnly ('&' :: 'a' :: 'm' :: 'p' :: ';' :: rest) = ampEntitiesOnly rest := by
  rw [ampEntitiesOnly]
  simp [List.isPrefixOf]

lemma ampEntitiesOnly_lt (rest : List Char) :
    ampEntitiesOnly ('&' :: 'l' :: 't' :: ';' :: rest) = ampEntitiesOnly rest := by
  rw [ampEntitiesOnly]
  simp [List.isPrefixOf]

lemma ampEntitiesOnly_gt (rest : List Char) :
    ampEntitiesOnly ('&' :: 'g' :: 't' :: ';' :: rest) = ampEntitiesOnly rest := by
  rw [ampEntitiesOnly]
  simp [List.isPrefixOf]

lemma ampEntitiesOnly_quot (rest : List Char) :
    ampEntitiesOnly ('&' :: 'q' :: 'u' :: 'o' :: 't' :: ';' :: rest) = ampEntitiesOnly rest := by
  rw [ampEntitiesOnly]
  simp [List.isPrefixOf]

lemma ampEntitiesOnly_apos (rest : List Char) :
    ampEntitiesOnly ('&' :: 'a' :: 'p' :: 'o' :: 's' :: ';' :: rest) = ampEntitiesOnly rest := by
  rw [ampEntitiesOnly]
  simp [List.isPrefixOf]

lemma ampEntitiesOnly_escChar (d : Char) (rest : List Char) :
    ampEntitiesOnly (escChar d ++ rest) = ampEntitiesOnly rest := by
  by_cases h1 : d = '&'
  · subst h1
    exact ampEntitiesOnly_amp rest
  · by_cases h2 : d = '<'
    · subst h2
      exact ampEntitiesOnly_lt rest
    · by_cases h3 : d = '>'
      · subst h3
        exact ampEntitiesOnly_gt rest
      · by_cases h4 : d = '"'
        · subst h4
          exact ampEntitiesOnly_quot rest
        · by_cases h5 : d = '\''
          · subst h5
            exact ampEntitiesOnly_apos rest
          · rw [show escChar d = [d] by simp [escChar, h1, h2, h3, h4, h5]]
            rw [List.singleton_append]
            exact ampEntitiesOnly_cons_ne h1 rest

lemma ampEntitiesOnly_flatMap (l rest : List Char) :
    ampEntitiesOnly (l.flatMap escChar ++ rest) = ampEntitiesOnly rest := by
  induction l with
  | nil => simp
  | cons d ds ih =>
      rw [List.flatMap_cons, List.append_assoc, ampEntitiesOnly_escChar, ih]

lemma ampEntitiesOnly_no_amp (t : List Char) (ht : '&' ∉ t) (rest : List Char) :
    ampEntitiesOnly (t ++ rest) = ampEntitiesOnly rest := by
  induction t with
  | nil => simp
  | cons c cs ih =>
      simp only [List.mem_cons, not_or] at ht
      rw [List.cons_append, ampEntitiesOnly_cons_ne (fun h => ht.1 h.symm), ih ht.2]

lemma ampEntitiesOnly_of_no_amp (t : List Char) (ht : '&' ∉ t) :
    ampEntitiesOnly t = true := by
  have h := ampEntitiesOnly_no_amp t ht []
  rw [List.append_nil] at h
  rw [h, ampEntitiesOnly]

lemma ampEntitiesOnly_flatMap_nil (l : List Char) :
    ampEntitiesOnly (l.flatMap escChar) = true := by
  have h := ampEntitiesOnly_flatMap l []
  rw [List.append_nil] at h
  rw [h, ampEntitiesOnly]

lemma count_escaped_eq_zero (l : List Char) (x : Char)
    (hx : x = '<' ∨ x = '>' ∨ x = '"' ∨ x = '\'') :
    (l.flatMap escChar).count x = 0 := by
  rw [List.count_eq_zero]
  intro hmem
  have h := flatMap_escChar_no_raw hmem
  rcases hx with rfl | rfl | rfl | rfl
  · exact h.1 rfl
  · exact h.2.1 rfl
  · exact h.2.2.1 rfl
  · exact h.2.2.2 rfl

/-! ## Decimal rendering of integers (JS `Number.prototype.toString`) -/

def digitChar (n : Nat) : Char :=
  match n with
  | 0 => '0' | 1 => '1' | 2 => '2' | 3 => '3' | 4 => '4'
  | 5 => '5' | 6 => '6' | 7 => '7' | 8 => '8' | _ => '9'

/-- Decimal digit list of a natural number, most significant first.  The fuel
argument (always at least the digit count) only makes the recursion
structural. -/
def natToDigitsAux : Nat → Nat → List Char
  | 0, _ => []
  | fuel + 1, n =>
      if n < 10 then [digitChar n]
      else natToDigitsAux fuel (n / 10) ++ [digitChar (n % 10)]

def natToDigits (n : Nat) : List Char := natToDigitsAux (n + 1) n

/-- JS `toString()` on an integer-valued number. -/
def intToString (i : Int) : String :=
  if i < 0 then ⟨'-' :: natToDigits i.natAbs⟩ else ⟨natToDigits i.natAbs⟩

/-! ## The reservation record built by `getFormData` (script.js 253–268) -/

structure FormData where
  guest_name : String
  email : String
  phone : String
  street_address : String
  municipality : String
  region : String
  country : String
  resort_name : String
  checkin_date : String
  checkout_date : String
  guests : Int
  payment_gateway : String
deriving Repr, DecidableEq

/-- JS `x || ''` on a string: the string itself unless falsy (empty). -/
def jsOrEmpty (s : String) : String := if s = "" then "" else s

/-- The XML request body built by `submitReservation` for `format === 'xml'`
(script.js 193–207), with each interpolated value passed through `escapeXml`. -/
def xmlBody (f : FormData) : String :=
  "<?xml version=\"1.0\" encoding=\"UTF-8\"?>\n<reservation>\n    <guest_name>"
  ++ escapeXml f.guest_name ++ "</guest_name>\n    <email>"
  ++ escapeXml f.email ++ "</email>\n    <phone>"
  ++ escapeXml (jsOrEmpty f.phone) ++ "</phone>\n    <street_address>"
  ++ escapeXml (jsOrEmpty f.street_address) ++ "</street_address>\n    <municipality>"
  ++ escapeXml (jsOrEmpty f.municipality) ++ "</municipality>\n    <region>"
  ++ escapeXml (jsOrEmpty f.region) ++ "</region>\n    <country>"
  ++ escapeXml (jsOrEmpty f.country) ++ "</country>\n    <resort_name>"
  ++ escapeXml f.resort_name ++ "</resort_name>\n    <checkin_date>"
  ++ escapeXml f.checkin_date ++ "</checkin_date>\n    <checkout_date>"
  ++ escapeXml f.checkout_date ++ "</checkout_date>\n    <guests>"
  ++ escapeXml (intToString f.guests) ++ "</guests>\n    <payment_gateway>"
  ++ escapeXml (jsOrEmpty f.payment_gateway) ++ "</payment_gateway>\n</reservation>"

/-- The twelve strings that `submitReservation` interpolates (escaped) into the
XML body, in document order. -/
def submittedValues (f : FormData) : List String :=
  [f.guest_name, f.email, jsOrEmpty f.phone, jsOrEmpty f.street_address,
   jsOrEmpty f.municipality, jsOrEmpty f.region, jsOrEmpty f.country,
   f.resort_name, f.checkin_date, f.checkout_date, intToString f.guests,
   jsOrEmpty f.payment_gateway]

/-- C1: for every reservation record, XML escaping of submitted field values is
total: the escaped value of every submitted field contains no raw `<`, `>`,
`"` or `'`, every `&` in it begins an XML entity, and every apostrophe in a
field value is rendered as `&apos;`; consequently the whole XML body contains
exactly the template's 27 `<`, 27 `>` and 4 `"` characters — none contributed
by field values — no apostrophe at all, and every `&` in the body begins an
entity. -/
theorem submit_xml_escaping_total (f : FormData) :
    (∀ s ∈ submittedValues f,
        '<' ∉ (escapeXml s).data ∧ '>' ∉ (escapeXml s).data ∧
        '"' ∉ (escapeXml s).data ∧ '\'' ∉ (escapeXml s).data ∧
        ampEntitiesOnly (escapeXml s).data = true ∧
        (∀ l1 l2, s.data = l1 ++ '\'' :: l2 →
          (escapeXml s).data =
            l1.flatMap escChar ++ "&apos;".data ++ l2.flatMap escChar)) ∧
    ((xmlBody f).data.count '<' = 27 ∧
     (xmlBody f).data.count '>' = 27 ∧
     (xmlBody f).data.count '"' = 4 ∧
     '\'' ∉ (xmlBody f).data ∧
     ampEntitiesOnly (xmlBody f).data = true) := by
  constructor
  · intro s _
    rw [escapeXml_data]
    refine ⟨fun h => (flatMap_escChar_no_raw h).1 rfl,
            fun h => (flatMap_escChar_no_raw h).2.1 rfl,
            fun h => (flatMap_escChar_no_raw h).2.2.1 rfl,
            fun h => (flatMap_escChar_no_raw h).2.2.2 rfl,
            ampEntitiesOnly_flatMap_nil s.data, ?_⟩
    intro l1 l2 h
    rw [h, List.flatMap_append, List.flatMap_cons,
        show escChar '\'' = "&apos;".data from rfl, List.append_assoc]
  · simp only [xmlBody, String.data_append, escapeXml_data, List.append_assoc]
    refine ⟨?_, ?_, ?_, ?_, ?_⟩
    · simp only [List.count_append, count_escaped_eq_zero _ _ (Or.inl rfl)]
      decide
    · simp only [List.count_append, count_escaped_eq_zero _ _ (Or.inr (Or.inl rfl))]
      decide
    · simp only [List.count_append,
        count_escaped_eq_zero _ _ (Or.inr (Or.inr (Or.inl rfl)))]
      decide
    · simp only [List.mem_append, not_or]
      refine ⟨?_, fun h => (flatMap_escChar_no_raw h).2.2.2 rfl, ?_,
        fun h => (flatMap_escChar_no_raw h).2.2.2 rfl, ?_,
        fun h => (flatMap_escChar_no_raw h).2.2.2 rfl, ?_,
        fun h => (flatMap_escChar_no_raw h).2.2.2 rfl, ?_,
        fun h => (flatMap_escChar_no_raw h).2.2.2 rfl, ?_,
        fun h => (flatMap_escChar_no_raw h).2.2.2 rfl, ?_,
        fun h => (flatMap_escChar_no_raw h).2.2.2 rfl, ?_,
        fun h => (flatMap_escChar_no_raw h).2.2.2 rfl, ?_,
        fun h => (flatMap_escChar_no_raw h).2.2.2 rfl, ?_,
        fun h => (flatMap_escChar_no_raw h).2.2.2 rfl, ?_,
        fun h => (flatMap_escChar_no_raw h).2.2.2 rfl, ?_,
        fun h => (flatMap_escChar_no_raw h).2.2.2 rfl, ?_⟩ <;> decide
    · rw [ampEntitiesOnly_no_amp _ (by decide), ampEntitiesOnly_flatMap,
          ampEntitiesOnly_no_amp _ (by decide), ampEntitiesOnly_flatMap,
          ampEntitiesOnly_no_amp _ (by decide), ampEntitiesOnly_flatMap,
          ampEntitiesOnly_no_amp _ (by decide), ampEntitiesOnly_flatMap,
          ampEntitiesOnly_no_amp _ (by decide), ampEntitiesOnly_flatMap,
          ampEntitiesOnly_no_amp _ (by decide), ampEntitiesOnly_flatMap,
          ampEntitiesOnly_no_amp _ (by decide), ampEntitiesOnly_flatMap,
          ampEntitiesOnly_no_amp _ (by decide), ampEntitiesOnly_flatMap,
          ampEntitiesOnly_no_amp _ (by decide), ampEntitiesOnly_flatMap,
          ampEntitiesOnly_no_amp _ (by decide), ampEntitiesOnly_flatMap,
          ampEntitiesOnly_no_amp _ (by decide), ampEntitiesOnly_flatMap,
          ampEntitiesOnly_no_amp _ (by decide), ampEntitiesOnly_flatMap]
      exact ampEntitiesOnly_of_no_amp _ (by decide)

/-- Sample record exercising `submit_xml_escaping_total` at a value whose
guest name contains every XML-significant character. -/
def c1SampleForm : FormData :=
  { guest_name := "O'Hara <\"&>", email := "a@b.c", phone := "", street_address := "",
    municipality := "", region := "", country := "", resort_name := "R",
    checkin_date := "2025-01-01", checkout_date := "2025-01-02", guests := 2,
    payment_gateway := "" }

theorem submit_xml_escaping_total_witness :
    '<' ∉ (escapeXml "O'Hara <\"&>").data ∧
    ampEntitiesOnly (escapeXml "O'Hara <\"&>").data = true ∧
    (escapeXml "O'Hara <\"&>").data =
      "O".data.flatMap escChar ++ "&apos;".data ++ "Hara <\"&>".data.flatMap escChar := by
  have h := (submit_xml_escaping_total c1SampleForm).1 "O'Hara <\"&>"
    (by simp [submittedValues, c1SampleForm])
  exact ⟨h.1, h.2.2.2.2.1, h.2.2.2.2.2 "O".data "Hara <\"&>".data (by decide)⟩

/-! ## JS `parseInt` -/

def isDigitChar (c : Char) : Bool := '0' ≤ c && c ≤ '9'

def isHexDigitChar (c : Char) : Bool :=
  isDigitChar c || ('a' ≤ c && c ≤ 'f') || ('A' ≤ c && c ≤ 'F')

def digitVal (c : Char) : Nat :=
  if c ≤ '9' then c.toNat - 48 else if c ≤ 'F' then c.toNat - 55 else c.toNat - 87

def digitsVal (radix : Nat) (l : List Char) : Nat :=
  l.foldl (fun acc c => acc * radix + digitVal c) 0

/-- Optional leading sign of a `parseInt` argument. -/
def parseSign : List Char → Int × List Char
  | '-' :: rest => (-1, rest)
  | '+' :: rest => (1, rest)
  | l => (1, l)

/-- `parseInt` with no explicit radix auto-detects a `0x`/`0X` prefix. -/
def parseRadixAuto : List Char → Nat × List Char
  | '0' :: 'x' :: rest => (16, rest)
  | '0' :: 'X' :: rest => (16, rest)
  | l => (10, l)

/-- JS `parseInt(s)` (radix unspecified): skip leading whitespace, optional
sign, optional hex prefix, then the longest digit prefix; `none` models the
`NaN` result when no digits are found. -/
def jsParseInt (s : String) : Option Int :=
  let l := s.data.dropWhile Char.isWhitespace
  let sl := parseSign l
  let rl := parseRadixAuto sl.2
  let digits := rl.2.takeWhile (if rl.1 = 16 then isHexDigitChar else isDigitChar)
  if digits = [] then none else some (sl.1 * (digitsVal rl.1 digits : Nat))

/-- JS `parseInt(s) || d`: the parse result unless it is `NaN` or `0`. -/
def jsParseIntOrElse (s : String) (d : Int) : Int :=
  match jsParseInt s with
  | some n => if n = 0 then d else n
  | none => d

lemma parseSign_other {c : Char} (l : List Char) (h1 : c ≠ '-') (h2 : c ≠ '+') :
    parseSign (c :: l) = (1, c :: l) := by
  rw [parseSign.eq_def]
  split
  · rename_i heq; rw [List.cons.injEq] at heq; exact absurd heq.1 h1
  · rename_i heq; rw [List.cons.injEq] at heq; exact absurd heq.1 h2
  · rfl

lemma parseRadixAuto_no_x {l : List Char} (h : ∀ c ∈ l, c ≠ 'x' ∧ c ≠ 'X') :
    parseRadixAuto l = (10, l) := by
  rw [parseRadixAuto.eq_def]
  split
  · exact absurd rfl (h 'x' (by simp)).1
  · exact absurd rfl (h 'X' (by simp)).2
  · rfl

lemma isDigitChar_ne {c : Char} (h : isDigitChar c = true) :
    c.isWhitespace = false ∧ c ≠ '-' ∧ c ≠ '+' ∧ c ≠ 'x' ∧ c ≠ 'X' := by
  refine ⟨?_, fun he => by subst he; exact absurd h (by decide),
          fun he => by subst he; exact absurd h (by decide),
          fun he => by subst he; exact absurd h (by decide),
          fun he => by subst he; exact absurd h (by decide)⟩
  by_contra hw
  rw [Bool.not_eq_false] at hw
  rw [Char.isWhitespace] at hw
  simp only [Bool.or_eq_true, decide_eq_true_eq] at hw
  rcases hw with ((rfl | rfl) | rfl) | rfl <;> exact absurd h (by decide)

lemma digitVal_digitChar {n : Nat} (h : n < 10) : digitVal (digitChar n) = n := by
  interval_cases n <;> decide

lemma isDigitChar_digitChar {n : Nat} (h : n < 10) : isDigitChar (digitChar n) = true := by
  interval_cases n <;> decide

lemma natToDigitsAux_spec (fuel : Nat) :
    ∀ n, n < fuel →
      (∀ c ∈ natToDigitsAux fuel n, isDigitChar c = true) ∧
      digitsVal 10 (natToDigitsAux fuel n) = n ∧
      natToDigitsAux fuel n ≠ [] := by
  induction fuel with
  | zero => intro n hn; omega
  | succ fuel ih =>
      intro n hn
      by_cases h10 : n < 10
      · rw [natToDigitsAux, if_pos h10]
        refine ⟨?_, ?_, by simp⟩
        · intro c hc
          rw [List.mem_singleton] at hc
          subst hc
          exact isDigitChar_digitChar h10
        · simp [digitsVal, digitVal_digitChar h10]
      · rw [natToDigitsAux, if_neg h10]
        have hlt : n / 10 < fuel := by
          have := Nat.div_lt_self (by omega : 0 < n) (by omega : 1 < 10)
          omega
        obtain ⟨hd, hv, _⟩ := ih (n / 10) hlt
        refine ⟨?_, ?_, by simp⟩
        · intro c hc
          rw [List.mem_append, List.mem_singleton] at hc
          rcases hc with hc | hc
          · exact hd c hc
          · subst hc
            exact isDigitChar_digitChar (Nat.mod_lt _ (by omega))
        · rw [digitsVal, List.foldl_append, ← digitsVal]
          rw [hv, List.foldl_cons, List.foldl_nil,
              digitVal_digitChar (Nat.mod_lt _ (by omega))]
          omega

lemma natToDigits_digits (n : Nat) : ∀ c ∈ natToDigits n, isDigitChar c = true :=
  (natToDigitsAux_spec (n + 1) n (by omega)).1

lemma digitsVal_natToDigits (n : Nat) : digitsVal 10 (natToDigits n) = n :=
  (natToDigitsAux_spec (n + 1) n (by omega)).2.1

lemma natToDigits_ne_nil (n : Nat) : natToDigits n ≠ [] :=
  (natToDigitsAux_spec (n + 1) n (by omega)).2.2

lemma dropWhile_of_all_not {p : Char → Bool} {l : List Char}
    (h : ∀ c ∈ l, p c = false) : l.dropWhile p = l := by
  cases l with
  | nil => rfl
  | cons c t => rw [List.dropWhile_cons, h c (by simp), if_neg (by simp)]

lemma takeWhile_of_all {p : Char → Bool} {l : List Char}
    (h : ∀ c ∈ l, p c = true) : l.takeWhile p = l := by
  induction l with
  | nil => rfl
  | cons c t ih =>
      rw [List.takeWhile_cons, if_pos (h c (by simp))]
      rw [ih (fun x hx => h x (by simp [hx]))]

/-- Parsing back the decimal rendering of an integer recovers the integer. -/
lemma jsParseInt_intToString (i : Int) : jsParseInt (intToString i) = some i := by
  have hd := natToDigits_digits i.natAbs
  have hnn := natToDigits_ne_nil i.natAbs
  have hdw : (natToDigits i.natAbs).dropWhile Char.isWhitespace = natToDigits i.natAbs :=
    dropWhile_of_all_not (fun c hc => (isDigitChar_ne (hd c hc)).1)
  have hsign : parseSign (natToDigits i.natAbs) = (1, natToDigits i.natAbs) := by
    obtain ⟨c, t, hct⟩ := List.exists_cons_of_ne_nil hnn
    rw [hct]
    have hc := hd c (by rw [hct]; simp)
    exact parseSign_other t (isDigitChar_ne hc).2.1 (isDigitChar_ne hc).2.2.1
  have hrad : parseRadixAuto (natToDigits i.natAbs) = (10, natToDigits i.natAbs) :=
    parseRadixAuto_no_x (fun c hc =>
      ⟨(isDigitChar_ne (hd c hc)).2.2.2.1, (isDigitChar_ne (hd c hc)).2.2.2.2⟩)
  have htake : (natToDigits i.natAbs).takeWhile isDigitChar = natToDigits i.natAbs :=
    takeWhile_of_all hd
  have hsign' : parseSign ('-' :: natToDigits i.natAbs)
      = (-1, natToDigits i.natAbs) := rfl
  have hdw' : ('-' :: natToDigits i.natAbs).dropWhile Char.isWhitespace
      = '-' :: natToDigits i.natAbs := by
    rw [List.dropWhile_cons]
    simp
  by_cases hneg : i < 0
  · rw [intToString, if_pos hneg]
    show jsParseInt ⟨'-' :: natToDigits i.natAbs⟩ = some i
    rw [jsParseInt]
    simp only [show (String.mk ('-' :: natToDigits i.natAbs)).data
        = '-' :: natToDigits i.natAbs from rfl, hdw', hsign', hrad, htake,
      digitsVal_natToDigits]
    simp only [show ((10:Nat) = 16) = False by simp, if_false, htake, if_neg hnn,
      digitsVal_natToDigits]
    rw [Option.some.injEq]
    omega
  · rw [intToString, if_neg hneg]
    show jsParseInt ⟨natToDigits i.natAbs⟩ = some i
    rw [jsParseInt]
    simp only [show (String.mk (natToDigits i.natAbs)).data
        = natToDigits i.natAbs from rfl, hdw, hsign, hrad, htake, digitsVal_natToDigits]
    simp only [show ((10:Nat) = 16) = False by simp, if_false, htake, if_neg hnn,
      digitsVal_natToDigits]
    rw [Option.some.injEq]
    omega

/-! ## Calendar dates (`new Date('YYYY-MM-DD')`) -/

def isLeapYear (y : Nat) : Bool := (y % 4 = 0 && y % 100 ≠ 0) || y % 400 = 0

def daysInMonth (y m : Nat) : Nat :=
  if m = 2 then (if isLeapYear y then 29 else 28)
  else if m = 4 || m = 6 || m = 9 || m = 11 then 30 else 31

/-- Parse of an ISO `YYYY-MM-DD` date string to a `(year, month, day)` triple;
`none` models the `Invalid Date` (`NaN`) result of `new Date(s)` on anything
else.  (The JS engine accepts further datetime forms that the date inputs of
this page never produce; they are out of this model.) -/
def parseIsoDate (s : String) : Option (Nat × Nat × Nat) :=
  match s.data with
  | [y1, y2, y3, y4, c1, m1, m2, c2, d1, d2] =>
      if isDigitChar y1 && isDigitChar y2 && isDigitChar y3 && isDigitChar y4 &&
         c1 == '-' && isDigitChar m1 && isDigitChar m2 && c2 == '-' &&
         isDigitChar d1 && isDigitChar d2 then
        let y := digitsVal 10 [y1, y2, y3, y4]
        let m := digitsVal 10 [m1, m2]
        let d := digitsVal 10 [d1, d2]
        if 1 ≤ m && m ≤ 12 && 1 ≤ d && d ≤ daysInMonth y m then some (y, m, d)
        else none
      else none
  | _ => none

/-- Numeric encoding of a date triple, order-isomorphic to the timestamp of
`new Date('YYYY-MM-DD')` for valid dates. -/
def dateCode (d : Nat × Nat × Nat) : Nat := d.1 * 10000 + d.2.1 * 100 + d.2.2

/-- JS `dateA <= dateB` on two `Date` values: `false` whenever either is an
`Invalid Date` (`NaN` comparison). -/
def jsDateLE : Option (Nat × Nat × Nat) → Option (Nat × Nat × Nat) → Bool
  | some a, some b => dateCode a ≤ dateCode b
  | _, _ => false

/-- JS `dateA < dateB`, with the same `NaN` semantics. -/
def jsDateLT : Option (Nat × Nat × Nat) → Option (Nat × Nat × Nat) → Bool
  | some a, some b => dateCode a < dateCode b
  | _, _ => false

def natToString (n : Nat) : String := ⟨natToDigits n⟩

def monthShort (m : Nat) : String :=
  match m with
  | 1 => "Jan" | 2 => "Feb" | 3 => "Mar" | 4 => "Apr" | 5 => "May" | 6 => "Jun"
  | 7 => "Jul" | 8 => "Aug" | 9 => "Sep" | 10 => "Oct" | 11 => "Nov" | _ => "Dec"

/-- `formatDate` (script.js 161–169): `''` on a falsy input, otherwise
`new Date(s).toLocaleDateString('en-US', {year:'numeric', month:'short',
day:'numeric'})`, modelled in UTC. -/
def formatDate (dateString : String) : String :=
  if dateString = "" then "" else
    match parseIsoDate dateString with
    | some (y, m, d) => monthShort m ++ " " ++ natToString d ++ ", " ++ natToString y
    | none => "Invalid Date"

/-! ## `escapeHtml` and the rendered table (script.js 117–175) -/

/-- Per-character effect of the DOM `textContent` → `innerHTML` round trip that
`escapeHtml` (script.js 171–175) performs: the HTML serialization escapes
`&`, `<` and `>` in text and leaves quotes untouched. -/
def htmlEscChar (c : Char) : List Char :=
  if c = '&' then "&amp;".data
  else if c = '<' then "&lt;".data
  else if c = '>' then "&gt;".data
  else [c]

def escapeHtml (s : String) : String := ⟨s.data.flatMap htmlEscChar⟩

/-- A record `id` as the script receives it: a server-assigned number, a
string, or absent (`null`). -/
inductive JsId where
  | num (n : Int)
  | str (s : String)
  | null
deriving Repr, DecidableEq

/-- JS string coercion of an id value (as in `` `#${id}` `` or `parseInt(id)`). -/
def jsIdToString : JsId → String
  | .num n => intToString n
  | .str s => s
  | .null => "null"

/-- The record fields that `renderTable` reads. -/
structure RenderRecord where
  id : JsId
  guest_name : String
  email : String
  resort_name : String
  checkin_date : String
  checkout_date : String
  guests : Int
deriving Repr, DecidableEq

/-- Sort key of `renderTable` (script.js 132–136): `parseInt(a.id) || 0`. -/
def sortKey (id : JsId) : Int := (jsParseInt (jsIdToString id)).getD 0

/-- `reservations.sort((a, b) => idB - idA)` (script.js 131–136): a stable
sort, descending by `sortKey`. -/
def sortedForRender (rs : List RenderRecord) : List RenderRecord :=
  rs.mergeSort (fun a b => sortKey b.id ≤ sortKey a.id)

/-- The `innerHTML` of one table row (script.js 143–156). -/
def rowHtml (r : RenderRecord) : String :=
  "\n            <td><strong style=\"font-size: 1.1em; color: #2c3e50;\">#"
  ++ jsIdToString r.id ++ "</strong></td>\n            <td>"
  ++ escapeHtml (jsOrEmpty r.guest_name) ++ "</td>\n            <td>"
  ++ escapeHtml (jsOrEmpty r.email) ++ "</td>\n            <td>"
  ++ escapeHtml (jsOrEmpty r.resort_name) ++ "</td>\n            <td>"
  ++ jsOrEmpty (formatDate r.checkin_date) ++ "</td>\n            <td>"
  ++ jsOrEmpty (formatDate r.checkout_date) ++ "</td>\n            <td><span class=\"guest-count\">"
  ++ intToString (if r.guests = 0 then 1 else r.guests)
  ++ "</span></td>\n            <td>\n                <button class=\"action-btn view\" onclick=\"viewReservation('"
  ++ jsIdToString r.id
  ++ "')\" title=\"View Details\">👁 View</button>\n                <button class=\"action-btn edit\" onclick=\"editReservation('"
  ++ jsIdToString r.id
  ++ "')\" title=\"Edit\">✏ Edit</button>\n                <button class=\"action-btn delete\" onclick=\"deleteReservation('"
  ++ jsIdToString r.id
  ++ "')\" title=\"Delete\">🗑 Delete</button>\n            </td>\n        "

/-- The placeholder row rendered for an empty listing (script.js 120–128). -/
def emptyTableRow : String :=
  "\n            <tr>\n                <td colspan=\"8\" style=\"text-align: center; padding: 40px; color: #666;\">\n                    📭 No reservations found. Create your first reservation above!\n                </td>\n            </tr>\n        "

/-- The rows that `renderTable` leaves in the table body for an array input
(script.js 117–159): clears, then either the placeholder or one row per
record in sorted order. -/
def renderTableRows (rs : List RenderRecord) : List String :=
  if rs.length = 0 then [emptyTableRow]
  else (sortedForRender rs).map rowHtml

/-- Record with a given id and neutral remaining fields. -/
def recWithId (id : JsId) : RenderRecord :=
  { id := id, guest_name := "", email := "", resort_name := "",
    checkin_date := "", checkout_date := "", guests := 1 }

/-- C4: `renderTable` orders records descending by numeric id where an id that
is missing or does not parse under `parseInt` sorts as `0`; for ids
`[3, "10", null, 7]` the rendered order is `10, 7, 3`, then the null-id
record last. -/
theorem renderTable_sorts_descending :
    (∀ rs : List RenderRecord,
        (sortedForRender rs).Pairwise (fun a b => sortKey b.id ≤ sortKey a.id) ∧
        (sortedForRender rs).Perm rs) ∧
    sortKey JsId.null = 0 ∧
    (∀ id, jsParseInt (jsIdToString id) = none → sortKey id = 0) ∧
    renderTableRows
        [recWithId (.num 3), recWithId (.str "10"), recWithId .null, recWithId (.num 7)]
      = [rowHtml (recWithId (.str "10")), rowHtml (recWithId (.num 7)),
         rowHtml (recWithId (.num 3)), rowHtml (recWithId .null)] := by
  refine ⟨fun rs => ⟨?_, List.mergeSort_perm rs _⟩, by decide, ?_, ?_⟩
  · have h := @List.sorted_mergeSort RenderRecord
      (fun a b : RenderRecord => sortKey b.id ≤ sortKey a.id)
      (fun a b c hab hbc => by
        simp only [decide_eq_true_eq] at *
        omega)
      (fun a b => by
        simp only [Bool.or_eq_true, decide_eq_true_eq]
        omega)
      rs
    simpa [sortedForRender] using h
  · intro id h
    rw [sortKey, h]
    rfl
  · have e3 : sortKey (recWithId (.num 3)).id = 3 := by decide
    have e10 : sortKey (recWithId (.str "10")).id = 10 := by decide
    have e0 : sortKey (recWithId .null).id = 0 := by decide
    have e7 : sortKey (recWithId (.num 7)).id = 7 := by decide
    rw [renderTableRows, if_neg (by simp), sortedForRender]
    simp [List.mergeSort, List.splitInTwo, List.splitAt_eq, List.merge, e3, e10, e0, e7]

/-- Witness: an id that `parseInt` cannot parse sorts as 0. -/
theorem renderTable_sorts_descending_witness :
    jsParseInt (jsIdToString (JsId.str "abc")) = none ∧ sortKey (JsId.str "abc") = 0 :=
  ⟨by decide, renderTable_sorts_descending.2.2.1 (JsId.str "abc") (by decide)⟩

/-! ## `getFormData` (script.js 253–268) -/

/-- JS `String.prototype.trim`: strip leading and trailing whitespace. -/
def trimList (l : List Char) : List Char :=
  ((l.dropWhile Char.isWhitespace).reverse.dropWhile Char.isWhitespace).reverse

def jsTrim (s : String) : String := ⟨trimList s.data⟩

def charClean : Option Char → Bool
  | none => true
  | some c => !c.isWhitespace

/-- A string is trimmed iff neither end carries whitespace. -/
def isTrimmedStr (s : String) : Bool := charClean s.data.head? && charClean s.data.getLast?

lemma charClean_head_dropWhile (l : List Char) :
    charClean (l.dropWhile Char.isWhitespace).head? = true := by
  induction l with
  | nil => rfl
  | cons c t ih =>
      rw [List.dropWhile_cons]
      by_cases hc : c.isWhitespace
      · rw [if_pos hc]
        exact ih
      · rw [if_neg hc, List.head?_cons]
        simp only [charClean, Bool.not_eq_true']
        exact Bool.of_not_eq_true hc

lemma charClean_getLast_dropWhile (l : List Char) (hl : charClean l.getLast? = true) :
    charClean (l.dropWhile Char.isWhitespace).getLast? = true := by
  induction l with
  | nil => exact hl
  | cons c t ih =>
      rw [List.dropWhile_cons]
      by_cases hc : c.isWhitespace
      · rw [if_pos hc]
        apply ih
        cases t with
        | nil => rfl
        | cons d u =>
            rw [List.getLast?_cons_cons] at hl
            exact hl
      · rw [if_neg hc]
        exact hl

lemma isTrimmedStr_jsTrim (s : String) : isTrimmedStr (jsTrim s) = true := by
  have hdata : (jsTrim s).data = trimList s.data := rfl
  rw [isTrimmedStr, hdata, trimList, Bool.and_eq_true]
  constructor
  · rw [List.head?_reverse]
    apply charClean_getLast_dropWhile
    rw [List.getLast?_reverse]
    exact charClean_head_dropWhile _
  · rw [List.getLast?_reverse]
    exact charClean_head_dropWhile _

/-- The raw values of the twelve form inputs (the DOM state that
`getFormData`/`validateForms` read through `document.getElementById`). -/
structure FormState where
  guest_name : String
  email : String
  phone : String
  street_address : String
  municipality : String
  region : String
  country : String
  resort_name : String
  checkin_date : String
  checkout_date : String
  guests : String
  payment_gateway : String
deriving Repr, DecidableEq

/-- `getFormData` (script.js 253–268): trims the seven personal free-text
fields, takes `resort_name`, the two dates and `payment_gateway` verbatim,
and parses `guests` with `parseInt(...) || 1`. -/
def getFormData (f : FormState) : FormData :=
  { guest_name := jsTrim f.guest_name
    email := jsTrim f.email
    phone := jsTrim f.phone
    street_address := jsTrim f.street_address
    municipality := jsTrim f.municipality
    region := jsTrim f.region
    country := jsTrim f.country
    resort_name := f.resort_name
    checkin_date := f.checkin_date
    checkout_date := f.checkout_date
    guests := jsParseIntOrElse f.guests 1
    payment_gateway := f.payment_gateway }

/-- A form state whose `resort_name` carries surrounding whitespace and whose
`guests` field parses to `0`. -/
def c5Form : FormState :=
  { guest_name := "A", email := "a@b.c", phone := "", street_address := "",
    municipality := "", region := "", country := "", resort_name := " Seaside Cove ",
    checkin_date := "2025-01-01", checkout_date := "2025-01-02", guests := "0",
    payment_gateway := "" }

/-- C5 counterexample: `getFormData` does not trim every string field —
`resort_name` is taken verbatim (script.js 262), so surrounding whitespace
survives; and a `guests` input parsing to the integer `0` yields `1`, not the
parse result. -/
theorem getFormData_trim_counterexample :
    isTrimmedStr (getFormData c5Form).resort_name = false ∧
    (getFormData c5Form).resort_name = " Seaside Cove " ∧
    jsParseInt c5Form.guests = some 0 ∧
    (getFormData c5Form).guests = 1 := by
  refine ⟨by decide, rfl, by decide, by decide⟩

/-- C5 (amended): `getFormData` never fails and returns a record whose seven
personal free-text fields (`guest_name`, `email`, `phone`, `street_address`,
`municipality`, `region`, `country`) are trimmed of surrounding whitespace,
whose `resort_name`, dates and `payment_gateway` are the raw field values,
and whose `guests` is the integer parse of the guests field, defaulting to 1
when the parse fails or yields `0`. -/
theorem getFormData_amended (f : FormState) :
    isTrimmedStr (getFormData f).guest_name = true ∧
    isTrimmedStr (getFormData f).email = true ∧
    isTrimmedStr (getFormData f).phone = true ∧
    isTrimmedStr (getFormData f).street_address = true ∧
    isTrimmedStr (getFormData f).municipality = true ∧
    isTrimmedStr (getFormData f).region = true ∧
    isTrimmedStr (getFormData f).country = true ∧
    (getFormData f).resort_name = f.resort_name ∧
    (getFormData f).checkin_date = f.checkin_date ∧
    (getFormData f).checkout_date = f.checkout_date ∧
    (getFormData f).payment_gateway = f.payment_gateway ∧
    (∀ n, jsParseInt f.guests = some n → n ≠ 0 → (getFormData f).guests = n) ∧
    (jsParseInt f.guests = none ∨ jsParseInt f.guests = some 0 →
      (getFormData f).guests = 1) := by
  refine ⟨isTrimmedStr_jsTrim _, isTrimmedStr_jsTrim _, isTrimmedStr_jsTrim _,
    isTrimmedStr_jsTrim _, isTrimmedStr_jsTrim _, isTrimmedStr_jsTrim _,
    isTrimmedStr_jsTrim _, rfl, rfl, rfl, rfl, ?_, ?_⟩
  · intro n h hn
    show jsParseIntOrElse f.guests 1 = n
    rw [jsParseIntOrElse, h]
    show (if n = 0 then 1 else n) = n
    rw [if_neg hn]
  · intro h
    show jsParseIntOrElse f.guests 1 = 1
    rcases h with h | h
    · rw [jsParseIntOrElse, h]
    · rw [jsParseIntOrElse, h]
      show (if (0 : Int) = 0 then 1 else 0) = 1
      rw [if_pos rfl]

/-- Witness for the amended C5 at a concrete form state. -/
theorem getFormData_amended_witness :
    jsParseInt " 42x" = some 42 ∧
    (getFormData { c5Form with guests := " 42x" }).guests = 42 :=
  ⟨by decide,
    (getFormData_amended { c5Form with guests := " 42x" }).2.2.2.2.2.2.2.2.2.2.2.1
      42 (by decide) (by decide)⟩

/-! ## `validateForms` (script.js 270–325) -/

inductive MsgKind where
  | success | error | warning | info
deriving Repr, DecidableEq

/-- One `showMessage(text, kind)` call. -/
structure Msg where
  text : String
  kind : MsgKind
deriving Repr, DecidableEq

def requiredFields : List String :=
  ["guest_name", "email", "resort_name", "checkin_date", "checkout_date", "guests"]

/-- `document.getElementById(fieldId).value` for the fields validation reads. -/
def getField (f : FormState) (id : String) : String :=
  if id = "guest_name" then f.guest_name
  else if id = "email" then f.email
  else if id = "resort_name" then f.resort_name
  else if id = "checkin_date" then f.checkin_date
  else if id = "checkout_date" then f.checkout_date
  else if id = "guests" then f.guests
  else ""

/-- The loop of script.js 273–283: the first required field whose trimmed
value is empty. -/
def firstEmptyRequired (f : FormState) : Option String :=
  requiredFields.find? (fun id => jsTrim (getField f id) == "")

/-- JS `str.replace('_', ' ')`: first occurrence only. -/
def replaceFirstChar (c r : Char) : List Char → List Char
  | [] => []
  | d :: t => if d = c then r :: t else d :: replaceFirstChar c r t

def jsReplaceFirst (s : String) (c r : Char) : String := ⟨replaceFirstChar c r s.data⟩

/-- Whether the domain part has a `.` preceded and followed by at least one
character (the `[^\s@]+\.[^\s@]+` part of the email regex). -/
def interiorDot : List Char → Bool
  | [] => false
  | [_] => false
  | _ :: c :: rest => (c == '.' && rest.length > 0) || interiorDot (c :: rest)

/-- Split a character list at every occurrence of `c`. -/
def splitAtChar (c : Char) : List Char → List (List Char)
  | [] => [[]]
  | d :: t =>
      if d = c then [] :: splitAtChar c t
      else match splitAtChar c t with
        | h :: t' => (d :: h) :: t'
        | [] => [[d]]

/-- The email regex `/^[^\s@]+@[^\s@]+\.[^\s@]+$/` of script.js 287: exactly
one `@` (the split yields two parts), a nonempty whitespace-free local part,
and a nonempty whitespace-free domain containing an interior dot. -/
def emailOk (s : String) : Bool :=
  match splitAtChar '@' s.data with
  | [loc, dom] =>
      loc.length > 0 && loc.all (fun c => !c.isWhitespace) &&
      dom.length > 0 && dom.all (fun c => !c.isWhitespace) &&
      interiorDot dom
  | _ => false

/-- The phone regex `/^09\d{9}$/` of script.js 320. -/
def phoneOk (s : String) : Bool :=
  match s.data with
  | '0' :: '9' :: rest => rest.length == 9 && rest.all isDigitChar
  | _ => false

/-- The non-blocking phone warning of script.js 319–322. -/
def phoneWarn (f : FormState) : List Msg :=
  if !(f.phone == "") && !phoneOk f.phone then
    [⟨"⚠️ Phone should be 11 digits starting with 09 (e.g., 09171234567)", .warning⟩]
  else []

/-- `validateForms` (script.js 270–325).  `tomorrow` is the environment's
`new Date()` rolled forward one day and truncated to midnight (309–311).
Returns the `true`/`false` result together with every `showMessage` call. -/
def validateForms (f : FormState) (tomorrow : Nat × Nat × Nat) : Bool × List Msg :=
  match firstEmptyRequired f with
  | some fid =>
      (false, [⟨"❌ Please fill in: " ++ jsReplaceFirst fid '_' ' ', .error⟩])
  | none =>
      if !emailOk f.email then
        (false, [⟨"❌ Please enter a valid email address", .error⟩])
      else if !(f.checkin_date == "") && !(f.checkout_date == "") then
        if jsDateLE (parseIsoDate f.checkout_date) (parseIsoDate f.checkin_date) then
          (false, [⟨"❌ Check-out date must be after check-in date", .error⟩])
        else
          (true,
            (if jsDateLT (parseIsoDate f.checkin_date) (some tomorrow) then
              [⟨"⚠️ Check-in date should be at least tomorrow", .warning⟩]
             else []) ++ phoneWarn f)
      else (true, phoneWarn f)

lemma parseIsoDate_ne_empty {s : String} {d : Nat × Nat × Nat}
    (h : parseIsoDate s = some d) : ¬(s == "") = true := by
  intro he
  rw [beq_iff_eq] at he
  subst he
  rw [show parseIsoDate "" = none from rfl] at h
  exact Option.noConfusion h

/-- C2: with all required fields present and a well-formed email, validation
fails with the date-order error exactly when `checkout_date <= checkin_date`
(compared as dates), passes whenever `checkout_date` is strictly after
`checkin_date`, and a `checkin_date` before "tomorrow" yields only a
non-blocking warning, never a failure. -/
theorem validateForms_date_order (f : FormState) (tomorrow : Nat × Nat × Nat)
    (hreq : firstEmptyRequired f = none) (hemail : emailOk f.email = true)
    (d1 d2 : Nat × Nat × Nat)
    (h1 : parseIsoDate f.checkin_date = some d1)
    (h2 : parseIsoDate f.checkout_date = some d2) :
    (((validateForms f tomorrow).1 = false ∧
        Msg.mk "❌ Check-out date must be after check-in date" .error
          ∈ (validateForms f tomorrow).2)
      ↔ dateCode d2 ≤ dateCode d1) ∧
    (dateCode d1 < dateCode d2 → (validateForms f tomorrow).1 = true) ∧
    (dateCode d1 < dateCode d2 → dateCode d1 < dateCode tomorrow →
      (validateForms f tomorrow).1 = true ∧
      Msg.mk "⚠️ Check-in date should be at least tomorrow" .warning
        ∈ (validateForms f tomorrow).2) := by
  have hv : validateForms f tomorrow =
      (if jsDateLE (parseIsoDate f.checkout_date) (parseIsoDate f.checkin_date) then
        (false, [⟨"❌ Check-out date must be after check-in date", .error⟩])
      else
        (true,
          (if jsDateLT (parseIsoDate f.checkin_date) (some tomorrow) then
            [⟨"⚠️ Check-in date should be at least tomorrow", .warning⟩]
           else []) ++ phoneWarn f)) := by
    rw [validateForms, hreq]
    rw [hemail]
    rw [if_neg (by simp)]
    rw [if_pos (by
      rw [Bool.and_eq_true, Bool.not_eq_eq_eq_not, Bool.not_eq_eq_eq_not]
      exact ⟨by simpa using parseIsoDate_ne_empty h1, by simpa using parseIsoDate_ne_empty h2⟩)]
  rw [hv, h1, h2]
  by_cases hle : dateCode d2 ≤ dateCode d1
  · rw [if_pos (by simp [jsDateLE, hle])]
    refine ⟨⟨fun _ => hle, fun _ => ⟨rfl, by simp⟩⟩, fun hlt => absurd hlt (by omega), ?_⟩
    intro hlt
    exact absurd hlt (by omega)
  · rw [if_neg (by simp [jsDateLE, hle])]
    refine ⟨⟨fun h => absurd h.1 (by simp), fun h => absurd h hle⟩, fun _ => rfl, ?_⟩
    intro _ htom
    refine ⟨rfl, ?_⟩
    rw [if_pos (by simp [jsDateLT, htom])]
    simp

/-- A fully valid form state used by witnesses. -/
def c2Form : FormState :=
  { guest_name := "Ana", email := "ana@resorts.ph", phone := "",
    street_address := "", municipality := "", region := "", country := "",
    resort_name := "Cove", checkin_date := "2025-03-01",
    checkout_date := "2025-03-05", guests := "2", payment_gateway := "" }

/-- Witness: a valid record with an early check-in passes validation with the
non-blocking warning. -/
theorem validateForms_date_order_witness :
    (validateForms c2Form (2025, 6, 1)).1 = true ∧
    Msg.mk "⚠️ Check-in date should be at least tomorrow" .warning
      ∈ (validateForms c2Form (2025, 6, 1)).2 :=
  (validateForms_date_order c2Form (2025, 6, 1) (by decide) (by decide)
    (2025, 3, 1) (2025, 3, 5) (by decide) (by decide)).2.2
    (by decide) (by decide)

/-! ## `submitReservation` (script.js 177–241) and session state -/

def API_BASE : String := "/reservations"

inductive HttpMethod where
  | get | post | put | delete
deriving Repr, DecidableEq

structure Request where
  method : HttpMethod
  url : String
  contentType : Option String
  body : String
deriving Repr, DecidableEq

/-- What the script observes of a `fetch` response. -/
structure FetchResp where
  ok : Bool
  status : Nat
  bodyText : String
deriving Repr, DecidableEq

/-- The only session state of the client (script.js 4–5). -/
structure SessionState where
  editMode : Bool
  currentEditId : Option String
deriving Repr, DecidableEq

def initialSession : SessionState := { editMode := false, currentEditId := none }

/-- Session-state effect of `resetForms` (script.js 327–337, lines 330–331). -/
def resetFormsSession : SessionState := { editMode := false, currentEditId := none }

/-- String escaping of `JSON.stringify` (the control characters other than
the common escapes never occur in this development). -/
def jsonEscChar (c : Char) : List Char :=
  if c = '"' then ['\\', '"']
  else if c = '\\' then ['\\', '\\']
  else if c = '\n' then ['\\', 'n']
  else if c = '\r' then ['\\', 'r']
  else if c = '\t' then ['\\', 't']
  else [c]

def jsonStr (s : String) : String := "\"" ++ ⟨s.data.flatMap jsonEscChar⟩ ++ "\""

/-- `JSON.stringify(formData)`: keys in insertion order (script.js 254–267). -/
def jsonStringify (d : FormData) : String :=
  "\x7b\"guest_name\":" ++ jsonStr d.guest_name
  ++ ",\"email\":" ++ jsonStr d.email
  ++ ",\"phone\":" ++ jsonStr d.phone
  ++ ",\"street_address\":" ++ jsonStr d.street_address
  ++ ",\"municipality\":" ++ jsonStr d.municipality
  ++ ",\"region\":" ++ jsonStr d.region
  ++ ",\"country\":" ++ jsonStr d.country
  ++ ",\"resort_name\":" ++ jsonStr d.resort_name
  ++ ",\"checkin_date\":" ++ jsonStr d.checkin_date
  ++ ",\"checkout_date\":" ++ jsonStr d.checkout_date
  ++ ",\"guests\":" ++ intToString d.guests
  ++ ",\"payment_gateway\":" ++ jsonStr d.payment_gateway ++ "\x7d"

/-- Environment of one submission: the validator's "tomorrow" and the
response the `fetch` would resolve to. -/
structure SubmitEnv where
  tomorrow : Nat × Nat × Nat
  resp : FetchResp
deriving Repr, DecidableEq

/-- Observable outcome of `submitReservation`: the fetches issued, every
`showMessage` call, the session state afterwards, and whether
`resetForms`/`loadReservations` ran. -/
structure SubmitOutcome where
  calls : List Request
  messages : List Msg
  session : SessionState
  didReset : Bool
  didReload : Bool
deriving Repr, DecidableEq

/-- `submitReservation(format)` (script.js 177–241): validate (returning
early on failure, before any network traffic), build the request (`PUT` to
`{base}/{id}` in edit mode, else `POST`; XML body and query parameter for
`format === 'xml'`, JSON otherwise), then on a non-2xx response report
`HTTP {status}: {body}` and keep all state; on success show the
created/updated notice, reset the forms and reload the listing. -/
def submitReservation (st : SessionState) (f : FormState) (format : String)
    (env : SubmitEnv) : SubmitOutcome :=
  let v := validateForms f env.tomorrow
  if !v.1 then
    { calls := [], messages := v.2, session := st, didReset := false, didReload := false }
  else
    let formData := getFormData f
    let req : Request :=
      if format == "xml" then
        { method := if st.editMode then .put else .post
          url := if st.editMode
            then API_BASE ++ "/" ++ st.currentEditId.getD "null" ++ "?format=xml"
            else API_BASE ++ "?format=xml"
          contentType := some "application/xml"
          body := xmlBody formData }
      else
        { method := if st.editMode then .put else .post
          url := if st.editMode
            then API_BASE ++ "/" ++ st.currentEditId.getD "null"
            else API_BASE
          contentType := some "application/json"
          body := jsonStringify formData }
    if !env.resp.ok then
      { calls := [req]
        messages := v.2 ++
          [⟨"❌ Failed to " ++ (if st.editMode then "update" else "create")
            ++ " reservation: HTTP " ++ natToString env.resp.status ++ ": "
            ++ env.resp.bodyText, .error⟩]
        session := st, didReset := false, didReload := false }
    else
      { calls := [req]
        messages := v.2 ++
          [⟨if st.editMode
            then "✅ Reservation #" ++ st.currentEditId.getD "null" ++ " updated successfully!"
            else "✅ Reservation created successfully!", .success⟩]
        session := resetFormsSession, didReset := true, didReload := true }

lemma firstEmptyRequired_guest_name {f : FormState} (h : jsTrim f.guest_name = "") :
    firstEmptyRequired f = some "guest_name" := by
  rw [firstEmptyRequired, requiredFields, List.find?_cons]
  rw [show jsTrim (getField f "guest_name") = jsTrim f.guest_name from rfl, h]
  rfl

/-- C6: a submission whose form has an empty (after trimming) required field
is blocked locally: no fetch is issued, the listing is not reloaded, and the
single surfaced error names the first failing field with `_` spaced; with
`guest_name` empty the error text contains "guest name". -/
theorem submit_blocked_on_empty_required (st : SessionState) (f : FormState)
    (format : String) (env : SubmitEnv) (fid : String)
    (h : firstEmptyRequired f = some fid) :
    (submitReservation st f format env).calls = [] ∧
    (submitReservation st f format env).didReload = false ∧
    (submitReservation st f format env).session = st ∧
    (submitReservation st f format env).messages =
      [⟨"❌ Please fill in: " ++ jsReplaceFirst fid '_' ' ', .error⟩] ∧
    (jsTrim f.guest_name = "" →
      (submitReservation st f format env).messages =
        [⟨"❌ Please fill in: guest name", .error⟩] ∧
      "guest name".data <:+: "❌ Please fill in: guest name".data) := by
  have hv : validateForms f env.tomorrow =
      (false, [⟨"❌ Please fill in: " ++ jsReplaceFirst fid '_' ' ', .error⟩]) := by
    rw [validateForms, h]
  have hs : submitReservation st f format env =
      { calls := [], messages := [⟨"❌ Please fill in: " ++ jsReplaceFirst fid '_' ' ', .error⟩],
        session := st, didReset := false, didReload := false } := by
    rw [submitReservation]
    simp only [hv]
    rfl
  rw [hs]
  refine ⟨rfl, rfl, rfl, rfl, ?_⟩
  intro hg
  have : fid = "guest_name" := by
    have := firstEmptyRequired_guest_name hg
    rw [this] at h
    exact (Option.some.injEq _ _ ▸ h).symm
  subst this
  exact ⟨rfl, by decide⟩

/-- An entirely empty form. -/
def emptyForm : FormState :=
  { guest_name := "", email := "", phone := "", street_address := "",
    municipality := "", region := "", country := "", resort_name := "",
    checkin_date := "", checkout_date := "", guests := "", payment_gateway := "" }

/-- Witness: submitting the empty form issues no call and complains about
"guest name". -/
theorem submit_blocked_on_empty_required_witness :
    (submitReservation initialSession emptyForm "json"
        ⟨(2025, 6, 1), ⟨true, 200, ""⟩⟩).calls = [] ∧
    (submitReservation initialSession emptyForm "json"
        ⟨(2025, 6, 1), ⟨true, 200, ""⟩⟩).messages =
      [⟨"❌ Please fill in: guest name", .error⟩] := by
  have h := submit_blocked_on_empty_required initialSession emptyForm "json"
    ⟨(2025, 6, 1), ⟨true, 200, ""⟩⟩ "guest_name" (by decide)
  exact ⟨h.1, (h.2.2.2.2 (by decide)).1⟩

/-! ## Session-state machine (C9) -/

/-- Session-state effect of `editReservation(id)` (script.js 419–458): after
a successful fetch the script enters edit mode (443–444); a failed fetch
leaves the state untouched. -/
def editReservationSession (st : SessionState) (id : String) (fetchOk : Bool) :
    SessionState :=
  if fetchOk then { editMode := true, currentEditId := some id } else st

/-- Session-state effect of `cancelEdit` (script.js 339–342): `resetForms`. -/
def cancelEditSession : SessionState := resetFormsSession

/-- The operations of the client that can touch `editMode`/`currentEditId`. -/
inductive SessionOp where
  | beginEdit (id : String) (fetchOk : Bool)
  | cancelEdit
  | submit (f : FormState) (format : String) (env : SubmitEnv)
  | load
deriving Repr

def applySessionOp (st : SessionState) : SessionOp → SessionState
  | .beginEdit id fetchOk => editReservationSession st id fetchOk
  | .cancelEdit => cancelEditSession
  | .submit f format env => (submitReservation st f format env).session
  | .load => st

lemma submitReservation_session_cases (st : SessionState) (f : FormState)
    (format : String) (env : SubmitEnv) :
    (submitReservation st f format env).session = st ∨
    (submitReservation st f format env).session = resetFormsSession := by
  rw [submitReservation]
  by_cases hv : (validateForms f env.tomorrow).1
  · simp only [hv, Bool.not_true, Bool.false_eq_true, if_false]
    by_cases hr : env.resp.ok
    · simp only [hr, Bool.not_true, Bool.false_eq_true, if_false]
      exact Or.inr trivial
    · simp only [Bool.not_eq_true] at hr
      simp only [hr, Bool.not_false, if_true]
      exact Or.inl trivial
  · simp only [Bool.not_eq_true] at hv
    simp only [hv, Bool.not_false, if_true]
    exact Or.inl trivial

def sessionConsistent (st : SessionState) : Prop :=
  st.editMode = st.currentEditId.isSome

lemma applySessionOp_preserves {st : SessionState} (h : sessionConsistent st)
    (op : SessionOp) : sessionConsistent (applySessionOp st op) := by
  cases op with
  | beginEdit id fetchOk =>
      rw [applySessionOp, editReservationSession]
      by_cases hok : fetchOk
      · rw [if_pos hok]
        rfl
      · rw [if_neg hok]
        exact h
  | cancelEdit => rfl
  | submit f format env =>
      rw [applySessionOp]
      rcases submitReservation_session_cases st f format env with he | he
      · rw [he]
        exact h
      · rw [he]
        rfl
  | load => exact h

/-- C9: in every session state reachable from the initial one through edit,
cancel, submit and load operations, `editMode` equals
`currentEditId != null`; and `resetForms` (run by cancel and by every
successful submit) restores `editMode = false`, `currentEditId = null`. -/
theorem session_state_invariant :
    resetFormsSession = { editMode := false, currentEditId := none } ∧
    initialSession = { editMode := false, currentEditId := none } ∧
    ∀ ops : List SessionOp,
      sessionConsistent (ops.foldl applySessionOp initialSession) := by
  refine ⟨rfl, rfl, ?_⟩
  have main : ∀ (ops : List SessionOp) (st : SessionState), sessionConsistent st →
      sessionConsistent (ops.foldl applySessionOp st) := by
    intro ops
    induction ops with
    | nil => intro st h; exact h
    | cons op rest ih =>
        intro st h
        rw [List.foldl_cons]
        exact ih _ (applySessionOp_preserves h op)
  exact fun ops => main ops initialSession rfl

/-! ## `deleteReservation` (script.js 460–479) -/

/-- Environment of one delete: the `confirm` answer, the `fetch` response,
and the outcome of `await response.json()` on it — `.error m` models a
rejected parse (`m` the parser's message), `.ok e` a parsed body with `e`
its `error` field. -/
structure DeleteEnv where
  confirmed : Bool
  resp : FetchResp
  jsonError : Except String (Option String)
deriving Repr

structure DeleteOutcome where
  calls : List Request
  messages : List Msg
  didReload : Bool
deriving Repr, DecidableEq

/-- `deleteReservation(id)` (script.js 460–479): nothing at all without
confirmation; a `DELETE {base}/{id}` otherwise; on success a notice and a
reload; on failure `errorData.error || 'HTTP {status}'` — where a body that
fails to parse as JSON makes `response.json()` itself throw, so the surfaced
message is the parse error, not the HTTP status. -/
def deleteReservation (id : String) (env : DeleteEnv) : DeleteOutcome :=
  if !env.confirmed then { calls := [], messages := [], didReload := false }
  else
    let req : Request :=
      { method := .delete, url := API_BASE ++ "/" ++ id, contentType := none, body := "" }
    if env.resp.ok then
      { calls := [req]
        messages := [⟨"✅ Reservation #" ++ id ++ " deleted successfully", .success⟩]
        didReload := true }
    else
      match env.jsonError with
      | .error m =>
          { calls := [req]
            messages := [⟨"❌ Failed to delete reservation #" ++ id ++ ": " ++ m, .error⟩]
            didReload := false }
      | .ok errField =>
          { calls := [req]
            messages := [⟨"❌ Failed to delete reservation #" ++ id ++ ": " ++
              (match errField with
               | some e => if e = "" then "HTTP " ++ natToString env.resp.status else e
               | none => "HTTP " ++ natToString env.resp.status), .error⟩]
            didReload := false }

/-- A confirmed delete hitting a 500 whose body is not JSON. -/
def delEnvBadJson : DeleteEnv :=
  { confirmed := true, resp := { ok := false, status := 500, bodyText := "<html>boom</html>" },
    jsonError := .error "Unexpected token < in JSON at position 0" }

set_option maxRecDepth 4000 in
/-- C7 counterexample: when the failure body cannot be parsed as JSON, the
reported message is the JSON parse error, not the raw HTTP status — the
status text appears nowhere in the message. -/
theorem deleteReservation_parse_fallback_counterexample :
    (deleteReservation "42" delEnvBadJson).messages =
      [⟨"❌ Failed to delete reservation #42: Unexpected token < in JSON at position 0",
        .error⟩] ∧
    ¬ ("HTTP 500".data <:+:
        "❌ Failed to delete reservation #42: Unexpected token < in JSON at position 0".data) :=
  ⟨rfl, by decide⟩

/-- C7 (amended): with confirmation declined nothing is fetched; on a failed
response the message carries the parsed `error` field when present and
non-empty, falls back to the raw HTTP status only when the body parses as
JSON without a usable `error` field, and reports the JSON parse failure
itself when the body does not parse. -/
theorem deleteReservation_error_reporting (id : String) (env : DeleteEnv) :
    (env.confirmed = false →
      (deleteReservation id env).calls = [] ∧ (deleteReservation id env).messages = []) ∧
    (env.confirmed = true →
      (deleteReservation id env).calls =
        [{ method := .delete, url := API_BASE ++ "/" ++ id, contentType := none, body := "" }]) ∧
    (env.confirmed = true → env.resp.ok = false →
      (∀ e, env.jsonError = .ok (some e) → e ≠ "" →
        (deleteReservation id env).messages =
          [⟨"❌ Failed to delete reservation #" ++ id ++ ": " ++ e, .error⟩]) ∧
      (env.jsonError = .ok none ∨ env.jsonError = .ok (some "") →
        (deleteReservation id env).messages =
          [⟨"❌ Failed to delete reservation #" ++ id ++ ": "
            ++ ("HTTP " ++ natToString env.resp.status), .error⟩]) ∧
      (∀ m, env.jsonError = .error m →
        (deleteReservation id env).messages =
          [⟨"❌ Failed to delete reservation #" ++ id ++ ": " ++ m, .error⟩])) := by
  obtain ⟨confirmed, resp, jsonError⟩ := env
  refine ⟨?_, ?_, ?_⟩
  · intro h
    subst h
    exact ⟨rfl, rfl⟩
  · intro h
    subst h
    rw [deleteReservation]
    by_cases hok : resp.ok
    · simp only [hok]
      rfl
    · simp only [Bool.not_eq_true] at hok
      simp only [hok]
      cases jsonError <;> rfl
  · intro hc hok
    subst hc
    simp only at hok
    refine ⟨?_, ?_, ?_⟩
    · intro e he hne
      simp only at he
      subst he
      rw [deleteReservation]
      simp only [hok, Bool.not_true, Bool.false_eq_true, if_false, Bool.not_false, if_true]
      simp [hne]
    · intro hcase
      simp only at hcase
      rw [deleteReservation]
      simp only [hok, Bool.not_true, Bool.false_eq_true, if_false, Bool.not_false, if_true]
      rcases hcase with h | h
      · subst h
        rfl
      · subst h
        simp
    · intro m hm
      simp only at hm
      subst hm
      rw [deleteReservation]
      simp only [hok, Bool.not_true, Bool.false_eq_true, if_false, Bool.not_false, if_true]

/-- Witness: confirmation declined yields no network call; a parsed `error`
field is reported verbatim. -/
theorem deleteReservation_error_reporting_witness :
    (deleteReservation "42"
        { confirmed := false, resp := ⟨false, 500, ""⟩, jsonError := .ok none }).calls = [] ∧
    (deleteReservation "7"
        { confirmed := true, resp := ⟨false, 404, ""⟩, jsonError := .ok (some "not found") }).messages =
      [⟨"❌ Failed to delete reservation #7: not found", .error⟩] :=
  ⟨((deleteReservation_error_reporting "42"
      { confirmed := false, resp := ⟨false, 500, ""⟩, jsonError := .ok none }).1 rfl).1,
   ((deleteReservation_error_reporting "7"
      { confirmed := true, resp := ⟨false, 404, ""⟩, jsonError := .ok (some "not found") }).2.2
      rfl rfl).1 "not found" rfl (by decide)⟩

/-! ## C10: raw id interpolation in table rows -/

lemma infix_head (x rest : List Char) : x <:+: x ++ rest :=
  (List.prefix_append x rest).isInfix

lemma infix_tail {x m : List Char} (l : List Char) (h : x <:+: m) : x <:+: l ++ m :=
  h.trans (List.suffix_append l m).isInfix

set_option maxRecDepth 8000 in
/-- The row template regrouped around the four raw interpolations of the id. -/
lemma rowHtml_data_split (r : RenderRecord) : (rowHtml r).data =
    "\n            <td><strong style=\"font-size: 1.1em; color: #2c3e50;\">".data ++
    (("#" ++ jsIdToString r.id ++ "</strong>").data ++
    ("</td>\n            <td>".data ++
    ((escapeHtml (jsOrEmpty r.guest_name)).data ++
    ("</td>\n            <td>".data ++
    ((escapeHtml (jsOrEmpty r.email)).data ++
    ("</td>\n            <td>".data ++
    ((escapeHtml (jsOrEmpty r.resort_name)).data ++
    ("</td>\n            <td>".data ++
    ((jsOrEmpty (formatDate r.checkin_date)).data ++
    ("</td>\n            <td>".data ++
    ((jsOrEmpty (formatDate r.checkout_date)).data ++
    ("</td>\n            <td><span class=\"guest-count\">".data ++
    ((intToString (if r.guests = 0 then 1 else r.guests)).data ++
    ("</span></td>\n            <td>\n                <button class=\"action-btn view\" onclick=\"".data ++
    (("viewReservation('" ++ jsIdToString r.id ++ "')").data ++
    ("\" title=\"View Details\">👁 View</button>\n                <button class=\"action-btn edit\" onclick=\"".data ++
    (("editReservation('" ++ jsIdToString r.id ++ "')").data ++
    ("\" title=\"Edit\">✏ Edit</button>\n                <button class=\"action-btn delete\" onclick=\"".data ++
    (("deleteReservation('" ++ jsIdToString r.id ++ "')").data ++
    "\" title=\"Delete\">🗑 Delete</button>\n            </td>\n        ".data))))))))))))))))))) := by
  simp only [rowHtml, String.data_append, List.append_assoc]
  rfl

/-- C10: in every rendered row the three text fields appear HTML-escaped via
`escapeHtml`, while the record's id is interpolated raw — it appears verbatim
in the visible `#`-cell and inside the `onclick` attributes of the
View/Edit/Delete buttons, so ids containing HTML-significant characters reach
the markup unescaped. -/
theorem rowHtml_escapes_fields_but_not_id (r : RenderRecord) :
    ((escapeHtml (jsOrEmpty r.guest_name)).data <:+: (rowHtml r).data) ∧
    ((escapeHtml (jsOrEmpty r.email)).data <:+: (rowHtml r).data) ∧
    ((escapeHtml (jsOrEmpty r.resort_name)).data <:+: (rowHtml r).data) ∧
    (("#" ++ jsIdToString r.id ++ "</strong>").data <:+: (rowHtml r).data) ∧
    (("viewReservation('" ++ jsIdToString r.id ++ "')").data <:+: (rowHtml r).data) ∧
    (("editReservation('" ++ jsIdToString r.id ++ "')").data <:+: (rowHtml r).data) ∧
    (("deleteReservation('" ++ jsIdToString r.id ++ "')").data <:+: (rowHtml r).data) := by
  rw [rowHtml_data_split]
  refine ⟨?_, ?_, ?_, ?_, ?_, ?_, ?_⟩
  · exact infix_tail _ (infix_tail _ (infix_tail _ (infix_head _ _)))
  · exact infix_tail _ (infix_tail _ (infix_tail _ (infix_tail _ (infix_tail _
      (infix_head _ _)))))
  · exact infix_tail _ (infix_tail _ (infix_tail _ (infix_tail _ (infix_tail _
      (infix_tail _ (infix_tail _ (infix_head _ _)))))))
  · exact infix_tail _ (infix_head _ _)
  · exact infix_tail _ (infix_tail _ (infix_tail _ (infix_tail _ (infix_tail _
      (infix_tail _ (infix_tail _ (infix_tail _ (infix_tail _ (infix_tail _
      (infix_tail _ (infix_tail _ (infix_tail _ (infix_tail _ (infix_tail _
      (infix_head _ _)))))))))))))))
  · exact infix_tail _ (infix_tail _ (infix_tail _ (infix_tail _ (infix_tail _
      (infix_tail _ (infix_tail _ (infix_tail _ (infix_tail _ (infix_tail _
      (infix_tail _ (infix_tail _ (infix_tail _ (infix_tail _ (infix_tail _
      (infix_tail _ (infix_tail _ (infix_head _ _)))))))))))))))))
  · exact infix_tail _ (infix_tail _ (infix_tail _ (infix_tail _ (infix_tail _
      (infix_tail _ (infix_tail _ (infix_tail _ (infix_tail _ (infix_tail _
      (infix_tail _ (infix_tail _ (infix_tail _ (infix_tail _ (infix_tail _
      (infix_tail _ (infix_tail _ (infix_tail _ (infix_tail _
      (infix_head _ _)))))))))))))))))))

/-! ## The XML DOM (`DOMParser`, `getElementsByTagName`, `textContent`)

A model of the platform XML machinery on the document subset this client
exchanges: a prolog, elements without attributes, text, and the five
standard entities. -/

inductive XNode where
  | text (s : String)
  | elem (tag : String) (children : List XNode)
deriving Repr

/-- Entity decoding the parser performs when storing text nodes (the DOM
exposes decoded text through `textContent`). -/
def decodeEntities : List Char → List Char
  | [] => []
  | c :: rest =>
      if c = '&' then
        if "amp;".data.isPrefixOf rest then '&' :: decodeEntities (rest.drop 4)
        else if "lt;".data.isPrefixOf rest then '<' :: decodeEntities (rest.drop 3)
        else if "gt;".data.isPrefixOf rest then '>' :: decodeEntities (rest.drop 3)
        else if "quot;".data.isPrefixOf rest then '"' :: decodeEntities (rest.drop 5)
        else if "apos;".data.isPrefixOf rest then '\'' :: decodeEntities (rest.drop 5)
        else c :: decodeEntities rest
      else c :: decodeEntities rest
termination_by l => l.length
decreasing_by
  all_goals simp [List.length_drop]
  all_goals omega

lemma decodeEntities_cons_ne {c : Char} (hc : c ≠ '&') (rest : List Char) :
    decodeEntities (c :: rest) = c :: decodeEntities rest := by
  rw [decodeEntities, if_neg hc]

lemma decodeEntities_amp (rest : List Char) :
    decodeEntities ('&' :: 'a' :: 'm' :: 'p' :: ';' :: rest) = '&' :: decodeEntities rest := by
  rw [decodeEntities]
  simp [List.isPrefixOf]

lemma decodeEntities_lt (rest : List Char) :
    decodeEntities ('&' :: 'l' :: 't' :: ';' :: rest) = '<' :: decodeEntities rest := by
  rw [decodeEntities]
  simp [List.isPrefixOf]

lemma decodeEntities_gt (rest : List Char) :
    decodeEntities ('&' :: 'g' :: 't' :: ';' :: rest) = '>' :: decodeEntities rest := by
  rw [decodeEntities]
  simp [List.isPrefixOf]

lemma decodeEntities_quot (rest : List Char) :
    decodeEntities ('&' :: 'q' :: 'u' :: 'o' :: 't' :: ';' :: rest)
      = '"' :: decodeEntities rest := by
  rw [decodeEntities]
  simp [List.isPrefixOf]

lemma decodeEntities_apos (rest : List Char) :
    decodeEntities ('&' :: 'a' :: 'p' :: 'o' :: 's' :: ';' :: rest)
      = '\'' :: decodeEntities rest := by
  rw [decodeEntities]
  simp [List.isPrefixOf]

/-- Decoding inverts `escapeXml` character-wise. -/
lemma decodeEntities_flatMap_escChar (l : List Char) :
    decodeEntities (l.flatMap escChar) = l := by
  induction l with
  | nil => rw [List.flatMap_nil, decodeEntities]
  | cons d ds ih =>
      rw [List.flatMap_cons]
      by_cases h1 : d = '&'
      · subst h1
        rw [show escChar '&' = ['&', 'a', 'm', 'p', ';'] from rfl]
        rw [List.cons_append, List.cons_append, List.cons_append, List.cons_append,
            List.cons_append, List.nil_append, decodeEntities_amp, ih]
      · by_cases h2 : d = '<'
        · subst h2
          rw [show escChar '<' = ['&', 'l', 't', ';'] from rfl]
          rw [List.cons_append, List.cons_append, List.cons_append, List.cons_append,
              List.nil_append, decodeEntities_lt, ih]
        · by_cases h3 : d = '>'
          · subst h3
            rw [show escChar '>' = ['&', 'g', 't', ';'] from rfl]
            rw [List.cons_append, List.cons_append, List.cons_append, List.cons_append,
                List.nil_append, decodeEntities_gt, ih]
          · by_cases h4 : d = '"'
            · subst h4
              rw [show escChar '"' = ['&', 'q', 'u', 'o', 't', ';'] from rfl]
              rw [List.cons_append, List.cons_append, List.cons_append, List.cons_append,
                  List.cons_append, List.cons_append, List.nil_append,
                  decodeEntities_quot, ih]
            · by_cases h5 : d = '\''
              · subst h5
                rw [show escChar '\'' = ['&', 'a', 'p', 'o', 's', ';'] from rfl]
                rw [List.cons_append, List.cons_append, List.cons_append, List.cons_append,
                    List.cons_append, List.cons_append, List.nil_append,
                    decodeEntities_apos, ih]
              · rw [show escChar d = [d] by simp [escChar, h1, h2, h3, h4, h5]]
                rw [List.singleton_append, decodeEntities_cons_ne h1, ih]

/-- XML name characters as used by the tags of this client. -/
def isNameChar (c : Char) : Bool := c.isAlphanum || c = '_'

/-- Recursive-descent parser over the element/text subset (no attributes,
comments or CDATA — none occur in this client's documents).  Parses a node
forest up to a closing tag or the end of input, returning the nodes and the
unconsumed input; `fuel` only bounds the recursion and is always supplied
large enough. -/
def parseNodes : Nat → List Char → Option (List XNode × List Char)
  | 0, _ => none
  | _ + 1, [] => some ([], [])
  | fuel + 1, c :: rest =>
      if c = '<' then
        if rest.head? = some '/' then some ([], c :: rest)
        else
          let tag := rest.takeWhile isNameChar
          if tag = [] then none
          else if (rest.dropWhile isNameChar).head? = some '>' then
            (parseNodes fuel (rest.dropWhile isNameChar).tail).bind (fun pr =>
              if pr.2.take 2 = ['<', '/'] then
                if (tag ++ ['>']).isPrefixOf (pr.2.drop 2) then
                  (parseNodes fuel ((pr.2.drop 2).drop (tag.length + 1))).map
                    (fun ps => (.elem ⟨tag⟩ pr.1 :: ps.1, ps.2))
                else none
              else none)
          else none
      else
        (parseNodes fuel ((c :: rest).dropWhile (fun d => !(d = '<')))).map
          (fun p =>
            (.text ⟨decodeEntities ((c :: rest).takeWhile (fun d => !(d = '<')))⟩ :: p.1,
              p.2))

/-- Skip the `<?xml ... ?>` declaration: everything through the first `>`. -/
def skipProlog (l : List Char) : List Char :=
  match l with
  | '<' :: '?' :: rest => (rest.dropWhile (fun d => !(d = '>'))).drop 1
  | _ => l

/-- `new DOMParser().parseFromString(s, 'text/xml')` on this client's
documents: `none` models the `parsererror` document. -/
def parseXmlDoc (s : String) : Option (List XNode) :=
  match parseNodes (s.data.length + 1) (skipProlog s.data) with
  | some (ns, []) => some ns
  | _ => none

mutual
/-- DOM `textContent`: the concatenated text of a subtree. -/
def textContent : XNode → String
  | .text s => s
  | .elem _ cs => textContentList cs
def textContentList : List XNode → String
  | [] => ""
  | n :: ns => textContent n ++ textContentList ns
end

mutual
/-- `getElementsByTagName` search: the node itself (when it is an element of
the given tag) and all matching descendants, in document order. -/
def selfDescByTag (tag : String) : XNode → List XNode
  | .text _ => []
  | .elem t cs => (if t = tag then [XNode.elem t cs] else []) ++ selfDescByTagList tag cs
def selfDescByTagList (tag : String) : List XNode → List XNode
  | [] => []
  | n :: ns => selfDescByTag tag n ++ selfDescByTagList tag ns
end

/-- `element.getElementsByTagName(tag)`: matching descendants, self excluded. -/
def elementsByTagIn (tag : String) (n : XNode) : List XNode :=
  match n with
  | .text _ => []
  | .elem _ cs => selfDescByTagList tag cs

/-- `document.getElementsByTagName(tag)` over a parsed forest. -/
def docElementsByTag (tag : String) (ns : List XNode) : List XNode :=
  selfDescByTagList tag ns

/-- `getXmlValue(element, tagName)` (script.js 112–115): the `textContent` of
the first matching descendant, or `''`. -/
def getXmlValue (element : XNode) (tagName : String) : String :=
  match elementsByTagIn tagName element with
  | e :: _ => textContent e
  | [] => ""

/-! ### Stepping lemmas for the parser -/

lemma decodeEntities_no_amp {l : List Char} (h : '&' ∉ l) : decodeEntities l = l := by
  induction l with
  | nil => rw [decodeEntities]
  | cons c t ih =>
      simp only [List.mem_cons, not_or] at h
      rw [decodeEntities_cons_ne (fun hc => h.1 hc.symm), ih h.2]

lemma takeWhile_until (stop : Char) {t : List Char} (rest : List Char) (h : stop ∉ t) :
    (t ++ stop :: rest).takeWhile (fun d => !(d = stop)) = t := by
  induction t with
  | nil => simp [List.takeWhile_cons]
  | cons c cs ih =>
      simp only [List.mem_cons, not_or] at h
      have hc : ¬c = stop := fun hh => h.1 hh.symm
      rw [List.cons_append, List.takeWhile_cons, if_pos (by simp [hc]), ih h.2]

lemma dropWhile_until (stop : Char) {t : List Char} (rest : List Char) (h : stop ∉ t) :
    (t ++ stop :: rest).dropWhile (fun d => !(d = stop)) = stop :: rest := by
  induction t with
  | nil => simp [List.dropWhile_cons]
  | cons c cs ih =>
      simp only [List.mem_cons, not_or] at h
      have hc : ¬c = stop := fun hh => h.1 hh.symm
      rw [List.cons_append, List.dropWhile_cons, if_pos (by simp [hc]), ih h.2]

lemma isNameChar_props {c : Char} (h : isNameChar c = true) :
    c ≠ '<' ∧ c ≠ '>' ∧ c ≠ '/' := by
  refine ⟨fun he => ?_, fun he => ?_, fun he => ?_⟩ <;>
    (subst he; exact absurd h (by decide))

lemma takeWhile_name (tag : List Char) (r : List Char)
    (h : ∀ c ∈ tag, isNameChar c = true) :
    (tag ++ '>' :: r).takeWhile isNameChar = tag := by
  induction tag with
  | nil => simp [List.takeWhile_cons, show isNameChar '>' = false from by decide]
  | cons c cs ih =>
      rw [List.cons_append, List.takeWhile_cons, if_pos (h c (by simp)),
        ih (fun x hx => h x (by simp [hx]))]

lemma dropWhile_name (tag : List Char) (r : List Char)
    (h : ∀ c ∈ tag, isNameChar c = true) :
    (tag ++ '>' :: r).dropWhile isNameChar = '>' :: r := by
  induction tag with
  | nil => simp [List.dropWhile_cons, show isNameChar '>' = false from by decide]
  | cons c cs ih =>
      rw [List.cons_append, List.dropWhile_cons, if_pos (h c (by simp)),
        ih (fun x hx => h x (by simp [hx]))]

lemma isPrefixOf_tag_gt (tag rest3 : List Char) :
    (tag ++ ['>']).isPrefixOf (tag ++ '>' :: rest3) = true := by
  rw [List.isPrefixOf_iff_prefix]
  exact ⟨rest3, by simp⟩

lemma drop_tag_gt (tag rest3 : List Char) :
    (tag ++ '>' :: rest3).drop (tag.length + 1) = rest3 := by
  induction tag with
  | nil => simp
  | cons c t ih =>
      rw [List.cons_append, List.length_cons,
        show t.length + 1 + 1 = (t.length + 1) + 1 from rfl,
        List.drop_succ_cons, ih]

lemma pn_nil (f : Nat) : parseNodes (f + 1) [] = some ([], []) := by
  rw [parseNodes]

lemma pn_close (f : Nat) (rest : List Char) :
    parseNodes (f + 1) ('<' :: '/' :: rest) = some ([], '<' :: '/' :: rest) := by
  rw [parseNodes]
  rfl

lemma pn_text {t : List Char} (f : Nat) (rest : List Char) (ht : t ≠ []) (hlt : '<' ∉ t) :
    parseNodes (f + 1) (t ++ '<' :: rest)
      = (parseNodes f ('<' :: rest)).map
          (fun p => (.text ⟨decodeEntities t⟩ :: p.1, p.2)) := by
  obtain ⟨c, cs, rfl⟩ := List.exists_cons_of_ne_nil ht
  have hc : c ≠ '<' := fun hh => hlt (by rw [hh]; simp)
  rw [List.cons_append, parseNodes, if_neg hc]
  rw [show ((c :: (cs ++ '<' :: rest)).dropWhile (fun d => !(d = '<'))) = '<' :: rest by
    rw [show c :: (cs ++ '<' :: rest) = (c :: cs) ++ '<' :: rest from rfl]
    exact dropWhile_until '<' rest hlt]
  rw [show ((c :: (cs ++ '<' :: rest)).takeWhile (fun d => !(d = '<'))) = c :: cs by
    rw [show c :: (cs ++ '<' :: rest) = (c :: cs) ++ '<' :: rest from rfl]
    exact takeWhile_until '<' rest hlt]

lemma pn_elem (f : Nat) (tag rest2 rest3 rem2 : List Char)
    (children siblings : List XNode)
    (htag : tag ≠ []) (hname : ∀ c ∈ tag, isNameChar c = true)
    (hch : parseNodes f rest2 = some (children, '<' :: '/' :: (tag ++ '>' :: rest3)))
    (hsib : parseNodes f rest3 = some (siblings, rem2)) :
    parseNodes (f + 1) ('<' :: (tag ++ '>' :: rest2))
      = some (.elem ⟨tag⟩ children :: siblings, rem2) := by
  obtain ⟨a, t, rfl⟩ := List.exists_cons_of_ne_nil htag
  have ha := hname a (by simp)
  have ha1 : a ≠ '/' := (isNameChar_props ha).2.2
  rw [parseNodes, if_pos rfl]
  rw [List.cons_append, List.head?_cons]
  rw [if_neg (by simp [ha1])]
  rw [show a :: (t ++ '>' :: rest2) = (a :: t) ++ '>' :: rest2 from rfl]
  rw [takeWhile_name _ _ hname, dropWhile_name _ _ hname]
  rw [if_neg (by simp)]
  rw [List.head?_cons, if_pos rfl, List.tail_cons]
  rw [hch, Option.some_bind]
  rw [show ('<' :: '/' :: (a :: t ++ '>' :: rest3) : List Char).take 2 = ['<', '/'] from rfl]
  rw [if_pos rfl]
  rw [show ('<' :: '/' :: (a :: t ++ '>' :: rest3) : List Char).drop 2
        = a :: t ++ '>' :: rest3 from rfl]
  rw [isPrefixOf_tag_gt]
  rw [if_pos rfl]
  rw [drop_tag_gt, hsib]
  rfl

lemma parse_textonly (esc : List Char) (hesc : '<' ∉ esc) (k : List Char)
    (f : Nat) (hf : 2 ≤ f) :
    parseNodes f (esc ++ '<' :: '/' :: k)
      = some ((if esc = [] then [] else [.text ⟨decodeEntities esc⟩]), '<' :: '/' :: k) := by
  obtain ⟨g, rfl⟩ : ∃ g, f = g + 2 := ⟨f - 2, by omega⟩
  by_cases he : esc = []
  · subst he
    rw [List.nil_append, if_pos rfl]
    exact pn_close (g + 1) k
  · rw [if_neg he]
    rw [show esc ++ '<' :: '/' :: k = esc ++ '<' :: ('/' :: k) from rfl]
    rw [show (g + 2) = (g + 1) + 1 from rfl]
    rw [pn_text (g + 1) ('/' :: k) he hesc]
    rw [pn_close g k]
    rfl

/-! ### Parsing the posted reservation document -/

/-- The inner region of the posted XML body: one indented line per
`(tag, escaped value)` pair, as laid out by the template of script.js
193–207, ending with the newline before `</reservation>`. -/
def childrenRegion : List (String × String) → List Char
  | [] => "\n".data
  | (tag, esc) :: rest =>
      "\n    ".data ++ '<' ::
        (tag.data ++ '>' ::
          (esc.data ++ '<' :: '/' :: (tag.data ++ '>' :: childrenRegion rest)))

/-- DOM children of a text-only element whose raw character content is
`esc.data`: empty content yields no child node at all. -/
def chOf (esc : String) : List XNode :=
  if esc.data = [] then [] else [.text ⟨decodeEntities esc.data⟩]

/-- The node list the parser produces for `childrenRegion`. -/
def childrenNodes : List (String × String) → List XNode
  | [] => [.text "\n"]
  | (tag, esc) :: rest => .text "\n    " :: .elem tag (chOf esc) :: childrenNodes rest

lemma childrenRegion_cons_append (tag esc : String) (rest : List (String × String))
    (close : List Char) :
    childrenRegion ((tag, esc) :: rest) ++ close
      = "\n    ".data ++ '<' ::
          (tag.data ++ '>' ::
            (esc.data ++ '<' :: '/' ::
              (tag.data ++ '>' :: (childrenRegion rest ++ close)))) := by
  rw [childrenRegion]
  simp [List.append_assoc]

lemma parse_children (fields : List (String × String))
    (hf : ∀ p ∈ fields,
      p.1.data ≠ [] ∧ (∀ c ∈ p.1.data, isNameChar c = true) ∧ '<' ∉ p.2.data) :
    ∀ (k : List Char) (f : Nat), 2 * fields.length + 2 ≤ f →
      parseNodes f (childrenRegion fields ++ '<' :: '/' :: k)
        = some (childrenNodes fields, '<' :: '/' :: k) := by
  induction fields with
  | nil =>
      intro k f hfuel
      obtain ⟨g, rfl⟩ : ∃ g, f = g + 2 := ⟨f - 2, by omega⟩
      rw [childrenRegion, childrenNodes]
      rw [show ("\n".data ++ '<' :: '/' :: k : List Char) = ['\n'] ++ '<' :: ('/' :: k)
          from rfl]
      rw [show g + 2 = (g + 1) + 1 from rfl]
      rw [pn_text (g + 1) ('/' :: k) (by decide) (by decide)]
      rw [pn_close g k]
      rw [decodeEntities_no_amp (by decide)]
      rfl
  | cons p rest ih =>
      obtain ⟨tag, esc⟩ := p
      intro k f hfuel
      simp only [List.length_cons] at hfuel
      obtain ⟨g, rfl⟩ : ∃ g, f = g + 2 := ⟨f - 2, by omega⟩
      have hp := hf (tag, esc) (by simp)
      rw [childrenNodes, childrenRegion_cons_append]
      rw [show g + 2 = (g + 1) + 1 from rfl]
      rw [pn_text (g + 1) _ (by decide) (by decide)]
      have hch : parseNodes g
          (esc.data ++ '<' :: '/' ::
            (tag.data ++ '>' :: (childrenRegion rest ++ '<' :: '/' :: k)))
          = some (chOf esc, '<' :: '/' ::
              (tag.data ++ '>' :: (childrenRegion rest ++ '<' :: '/' :: k))) :=
        parse_textonly esc.data hp.2.2 _ g (by omega)
      have hsib : parseNodes g (childrenRegion rest ++ '<' :: '/' :: k)
          = some (childrenNodes rest, '<' :: '/' :: k) :=
        ih (fun q hq => hf q (by simp [hq])) k g (by omega)
      rw [pn_elem g tag.data _ _ _ _ _ hp.1 hp.2.1 hch hsib]
      rw [decodeEntities_no_amp (by decide)]
      rfl

/-- The whole document body after the XML declaration. -/
def rootRegion (fields : List (String × String)) : List Char :=
  '\n' :: '<' ::
    ("reservation".data ++ '>' ::
      (childrenRegion fields ++ '<' :: '/' :: ("reservation".data ++ '>' :: [])))

lemma parse_root (fields : List (String × String))
    (hf : ∀ p ∈ fields,
      p.1.data ≠ [] ∧ (∀ c ∈ p.1.data, isNameChar c = true) ∧ '<' ∉ p.2.data)
    (f : Nat) (hfuel : 2 * fields.length + 4 ≤ f) :
    parseNodes f (rootRegion fields)
      = some ([.text "\n", .elem "reservation" (childrenNodes fields)], []) := by
  obtain ⟨g, rfl⟩ : ∃ g, f = g + 2 := ⟨f - 2, by omega⟩
  rw [rootRegion]
  rw [show ('\n' :: '<' ::
        ("reservation".data ++ '>' ::
          (childrenRegion fields ++ '<' :: '/' :: ("reservation".data ++ '>' :: [])))
        : List Char)
      = ['\n'] ++ '<' ::
          ("reservation".data ++ '>' ::
            (childrenRegion fields ++ '<' :: '/' :: ("reservation".data ++ '>' :: [])))
      from rfl]
  rw [show g + 2 = (g + 1) + 1 from rfl]
  rw [pn_text (g + 1) _ (by decide) (by decide)]
  have hch : parseNodes g
      (childrenRegion fields ++ '<' :: '/' :: ("reservation".data ++ '>' :: []))
      = some (childrenNodes fields, '<' :: '/' :: ("reservation".data ++ '>' :: [])) :=
    parse_children fields hf _ g (by omega)
  have hsib : parseNodes g [] = some ([], []) := by
    obtain ⟨g', rfl⟩ : ∃ g', g = g' + 1 := ⟨g - 1, by omega⟩
    exact pn_nil g'
  rw [pn_elem g "reservation".data _ _ _ _ _ (by decide) (by decide) hch hsib]
  rw [decodeEntities_no_amp (by decide)]
  rfl

/-- The twelve `(tag, escaped value)` pairs of the posted body, in document
order. -/
def fieldsOf (d : FormData) : List (String × String) :=
  [("guest_name", escapeXml d.guest_name),
   ("email", escapeXml d.email),
   ("phone", escapeXml (jsOrEmpty d.phone)),
   ("street_address", escapeXml (jsOrEmpty d.street_address)),
   ("municipality", escapeXml (jsOrEmpty d.municipality)),
   ("region", escapeXml (jsOrEmpty d.region)),
   ("country", escapeXml (jsOrEmpty d.country)),
   ("resort_name", escapeXml d.resort_name),
   ("checkin_date", escapeXml d.checkin_date),
   ("checkout_date", escapeXml d.checkout_date),
   ("guests", escapeXml (intToString d.guests)),
   ("payment_gateway", escapeXml (jsOrEmpty d.payment_gateway))]

set_option maxRecDepth 8000 in
lemma xmlBody_data (d : FormData) :
    (xmlBody d).data = '<' :: '?' ::
      ("xml version=\"1.0\" encoding=\"UTF-8\"?".data ++ '>' :: rootRegion (fieldsOf d)) := by
  simp only [xmlBody, fieldsOf, rootRegion, childrenRegion, String.data_append,
    List.cons_append, List.append_assoc]
  rfl

lemma skipProlog_xmlBody (d : FormData) :
    skipProlog (xmlBody d).data = rootRegion (fieldsOf d) := by
  rw [xmlBody_data, skipProlog]
  rw [dropWhile_until '>' _ (by decide)]
  rfl

/-! ### The XML reader of `loadReservations` (script.js 85–100) -/

/-- What the reader recovers for the twelve submitted fields; `guests` is the
`parseInt` result, `none` modelling `NaN`. -/
structure ReadRecord where
  guest_name : String
  email : String
  phone : String
  street_address : String
  municipality : String
  region : String
  country : String
  resort_name : String
  checkin_date : String
  checkout_date : String
  guests : Option Int
  payment_gateway : String
deriving Repr, DecidableEq

/-- The XML reader applied to one `<reservation>` element (script.js 85–100,
restricted to the submitted fields): each field is `getXmlValue`, and
`guests` is `parseInt(getXmlValue(res, 'guests') || 1)`. -/
def readReservationElem (res : XNode) : ReadRecord :=
  { guest_name := getXmlValue res "guest_name"
    email := getXmlValue res "email"
    phone := getXmlValue res "phone"
    street_address := getXmlValue res "street_address"
    municipality := getXmlValue res "municipality"
    region := getXmlValue res "region"
    country := getXmlValue res "country"
    resort_name := getXmlValue res "resort_name"
    checkin_date := getXmlValue res "checkin_date"
    checkout_date := getXmlValue res "checkout_date"
    guests := jsParseInt
      (if getXmlValue res "guests" = "" then "1" else getXmlValue res "guests")
    payment_gateway := getXmlValue res "payment_gateway" }

lemma selfDescList_chOf (tag : String) (esc : String) :
    selfDescByTagList tag (chOf esc) = [] := by
  rw [chOf]
  by_cases h : esc.data = []
  · rw [if_pos h, selfDescByTagList]
  · rw [if_neg h, selfDescByTagList, selfDescByTag, selfDescByTagList]
    rfl

lemma selfDescList_childrenNodes (tag : String) (fields : List (String × String)) :
    selfDescByTagList tag (childrenNodes fields)
      = (fields.filter (fun p => p.1 == tag)).map (fun p => XNode.elem p.1 (chOf p.2)) := by
  induction fields with
  | nil =>
      rw [childrenNodes, selfDescByTagList, selfDescByTag, selfDescByTagList]
      simp
  | cons p rest ih =>
      obtain ⟨tg, esc⟩ := p
      rw [childrenNodes, selfDescByTagList, selfDescByTag, List.nil_append,
        selfDescByTagList, selfDescByTag, selfDescList_chOf, List.append_nil, ih]
      by_cases h : tg = tag
      · subst h
        rw [if_pos rfl, List.filter_cons, if_pos (by simp)]
        rfl
      · rw [if_neg h, List.filter_cons, if_neg (by simp [h]), List.nil_append]

lemma textContent_chOf (t : String) (esc : String) :
    textContent (.elem t (chOf esc)) = ⟨decodeEntities esc.data⟩ := by
  rw [textContent, chOf]
  by_cases h : esc.data = []
  · rw [if_pos h, textContentList, h, decodeEntities]
  · rw [if_neg h, textContentList, textContent, textContentList]
    exact String.append_empty _

lemma decode_escape (s : String) : (⟨decodeEntities (escapeXml s).data⟩ : String) = s := by
  rw [escapeXml_data, decodeEntities_flatMap_escChar]

lemma getXmlValue_field (fields : List (String × String)) (tag : String) (esc : String)
    (hfind : fields.filter (fun p => p.1 == tag) = [(tag, esc)]) :
    getXmlValue (.elem "reservation" (childrenNodes fields)) tag
      = (⟨decodeEntities esc.data⟩ : String) := by
  rw [getXmlValue, elementsByTagIn, selfDescList_childrenNodes, hfind]
  rw [List.map_cons]
  exact textContent_chOf tag esc

lemma jsOrEmpty_eq (s : String) : jsOrEmpty s = s := by
  rw [jsOrEmpty]
  by_cases h : s = ""
  · rw [if_pos h, h]
  · rw [if_neg h]

lemma intToString_ne_empty (i : Int) : intToString i ≠ "" := by
  rw [intToString]
  by_cases h : i < 0
  · rw [if_pos h]
    intro hc
    exact List.cons_ne_nil _ _ (congrArg String.data hc)
  · rw [if_neg h]
    intro hc
    exact natToDigits_ne_nil i.natAbs (congrArg String.data hc)

/-- C3: encoding a record to the XML document shape built by
`submitReservation` and reading every field back through the parsed DOM with
`getXmlValue` (with `guests` parsed as an integer) recovers the original
field values, for every record whose field values are ASCII printable
strings. -/
theorem xml_encode_decode_roundtrip (d : FormData)
    (_hprint : ∀ s ∈ submittedValues d, ∀ c ∈ s.data, 32 ≤ c.toNat ∧ c.toNat ≤ 126) :
    ∃ ns res, parseXmlDoc (xmlBody d) = some ns ∧
      docElementsByTag "reservation" ns = [res] ∧
      readReservationElem res =
        { guest_name := d.guest_name, email := d.email, phone := d.phone,
          street_address := d.street_address, municipality := d.municipality,
          region := d.region, country := d.country, resort_name := d.resort_name,
          checkin_date := d.checkin_date, checkout_date := d.checkout_date,
          guests := some d.guests, payment_gateway := d.payment_gateway } := by
  have hfields : ∀ p ∈ fieldsOf d,
      p.1.data ≠ [] ∧ (∀ c ∈ p.1.data, isNameChar c = true) ∧ '<' ∉ p.2.data := by
    intro p hp
    simp only [fieldsOf, List.mem_cons, List.not_mem_nil, or_false] at hp
    have hesc : ∀ s, '<' ∉ (escapeXml s).data := by
      intro s h
      rw [escapeXml_data] at h
      exact (flatMap_escChar_no_raw h).1 rfl
    have htag : p.1 = "guest_name" ∨ p.1 = "email" ∨ p.1 = "phone" ∨
        p.1 = "street_address" ∨ p.1 = "municipality" ∨ p.1 = "region" ∨
        p.1 = "country" ∨ p.1 = "resort_name" ∨ p.1 = "checkin_date" ∨
        p.1 = "checkout_date" ∨ p.1 = "guests" ∨ p.1 = "payment_gateway" := by
      rcases hp with rfl | rfl | rfl | rfl | rfl | rfl | rfl | rfl | rfl | rfl | rfl | rfl <;>
        simp
    have hsnd : ∃ s, p.2 = escapeXml s := by
      rcases hp with rfl | rfl | rfl | rfl | rfl | rfl | rfl | rfl | rfl | rfl | rfl | rfl <;>
        exact ⟨_, rfl⟩
    obtain ⟨s, hs⟩ := hsnd
    refine ⟨?_, ?_, by rw [hs]; exact hesc s⟩ <;>
      (rcases htag with h | h | h | h | h | h | h | h | h | h | h | h <;> rw [h] <;> decide)
  have hlen : 28 ≤ (xmlBody d).data.length + 1 := by
    rw [xmlBody_data]
    have h1 : ("xml version=\"1.0\" encoding=\"UTF-8\"?".data).length = 35 := by decide
    simp only [List.length_cons, List.length_append, h1]
    omega
  have hparse : parseXmlDoc (xmlBody d)
      = some [.text "\n", .elem "reservation" (childrenNodes (fieldsOf d))] := by
    rw [parseXmlDoc, skipProlog_xmlBody]
    rw [parse_root (fieldsOf d) hfields _ (by
      simp only [fieldsOf, List.length_cons, List.length_nil]
      omega)]
  refine ⟨_, .elem "reservation" (childrenNodes (fieldsOf d)), hparse, ?_, ?_⟩
  · rw [docElementsByTag, selfDescByTagList, selfDescByTag, List.nil_append,
      selfDescByTagList, selfDescByTag, if_pos rfl, selfDescByTagList,
      selfDescList_childrenNodes]
    rw [show (fieldsOf d).filter (fun p => p.1 == "reservation") = [] by
      simp [fieldsOf]]
    simp
  · have hguests : getXmlValue (XNode.elem "reservation" (childrenNodes (fieldsOf d)))
        "guests" = intToString d.guests := by
      rw [getXmlValue_field _ _ (escapeXml (intToString d.guests)) (by simp [fieldsOf]),
        decode_escape]
    rw [readReservationElem]
    rw [getXmlValue_field _ _ (escapeXml d.guest_name) (by simp [fieldsOf]), decode_escape]
    rw [getXmlValue_field _ _ (escapeXml d.email) (by simp [fieldsOf]), decode_escape]
    rw [getXmlValue_field _ _ (escapeXml (jsOrEmpty d.phone)) (by simp [fieldsOf]),
      decode_escape]
    rw [getXmlValue_field _ _ (escapeXml (jsOrEmpty d.street_address)) (by simp [fieldsOf]),
      decode_escape]
    rw [getXmlValue_field _ _ (escapeXml (jsOrEmpty d.municipality)) (by simp [fieldsOf]),
      decode_escape]
    rw [getXmlValue_field _ _ (escapeXml (jsOrEmpty d.region)) (by simp [fieldsOf]),
      decode_escape]
    rw [getXmlValue_field _ _ (escapeXml (jsOrEmpty d.country)) (by simp [fieldsOf]),
      decode_escape]
    rw [getXmlValue_field _ _ (escapeXml d.resort_name) (by simp [fieldsOf]), decode_escape]
    rw [getXmlValue_field _ _ (escapeXml d.checkin_date) (by simp [fieldsOf]), decode_escape]
    rw [getXmlValue_field _ _ (escapeXml d.checkout_date) (by simp [fieldsOf]),
      decode_escape]
    rw [hguests]
    rw [getXmlValue_field _ _ (escapeXml (jsOrEmpty d.payment_gateway)) (by simp [fieldsOf]),
      decode_escape]
    rw [if_neg (intToString_ne_empty d.guests), jsParseInt_intToString]
    rw [jsOrEmpty_eq, jsOrEmpty_eq, jsOrEmpty_eq, jsOrEmpty_eq, jsOrEmpty_eq, jsOrEmpty_eq]

/-- Witness: the round trip at a record exercising every escaped character. -/
theorem xml_encode_decode_roundtrip_witness :
    ∃ ns res, parseXmlDoc (xmlBody
        { guest_name := "O'Hara <\"&>", email := "a@b.c", phone := "", street_address := "",
          municipality := "", region := "", country := "", resort_name := "R",
          checkin_date := "2025-01-01", checkout_date := "2025-01-02", guests := 2,
          payment_gateway := "" }) = some ns ∧
      docElementsByTag "reservation" ns = [res] ∧
      readReservationElem res =
        { guest_name := "O'Hara <\"&>", email := "a@b.c", phone := "", street_address := "",
          municipality := "", region := "", country := "", resort_name := "R",
          checkin_date := "2025-01-01", checkout_date := "2025-01-02", guests := some 2,
          payment_gateway := "" } :=
  xml_encode_decode_roundtrip
    { guest_name := "O'Hara <\"&>", email := "a@b.c", phone := "", street_address := "",
      municipality := "", region := "", country := "", resort_name := "R",
      checkin_date := "2025-01-01", checkout_date := "2025-01-02", guests := 2,
      payment_gateway := "" }
    (by decide)

/-! ## `loadReservations` (script.js 68–110) and the table frame property -/

/-- One reservation element mapped to the record shape `renderTable` reads
(script.js 85–100).  This parser subset carries no attributes, so
`res.getAttribute('id')` is `null` and the `|| getXmlValue(res, 'id')`
fallback applies; a `NaN` guests parse is collapsed to `0`, which renders
exactly like `NaN` under the `guests || 1` of the row template. -/
def xmlRecordOf (res : XNode) : RenderRecord :=
  { id := .str (getXmlValue res "id")
    guest_name := getXmlValue res "guest_name"
    email := getXmlValue res "email"
    resort_name := getXmlValue res "resort_name"
    checkin_date := getXmlValue res "checkin_date"
    checkout_date := getXmlValue res "checkout_date"
    guests := (jsParseInt
      (if getXmlValue res "guests" = "" then "1" else getXmlValue res "guests")).getD 0 }

def xmlResponseRecords (body : String) : List RenderRecord :=
  (match parseXmlDoc body with
   | some ns => docElementsByTag "reservation" ns
   | none => []).map xmlRecordOf

inductive FetchOutcome where
  | netError
  | resp (r : FetchResp)
deriving Repr

/-- Shape of a parsed listing response body. -/
inductive ListJson where
  | arr (rs : List RenderRecord)
  | nonArray
deriving Repr

/-- Environment of one listing fetch: the fetch outcome and, for the JSON
path, the `response.json()` oracle (`.error m` models a rejected parse). -/
structure LoadEnv where
  fetchRes : FetchOutcome
  jsonParse : Except String ListJson

def loadErrorMsg : Msg :=
  ⟨"Failed to load reservations. Make sure the backend server is running.", .error⟩

/-- `renderTable(v)` on an arbitrary `response.json()` value: the table body
is cleared first (script.js 118); a non-array value then throws at
`reservations.sort` — `.length` is `undefined`, so the `=== 0` empty-check is
false, and only arrays have `.sort` — leaving the table cleared.  Returns the
table contents and whether the call threw. -/
def renderTableJS (v : ListJson) : List String × Bool :=
  match v with
  | .arr rs => (renderTableRows rs, false)
  | .nonArray => ([], true)

/-- `loadReservations` (script.js 68–110): on the XML path the response text
is parsed by `DOMParser` (which never throws) and the resulting records are
rendered; on the JSON path `response.json()` may reject, and whatever it
yields is handed to `renderTable`; every exception anywhere lands in the
`catch`, which only shows a message.  `table` is the rendered table body
before the call. -/
def loadReservations (env : LoadEnv) (format : String) (table : List String) :
    List String × List Msg :=
  match env.fetchRes with
  | .netError => (table, [loadErrorMsg])
  | .resp r =>
      if format == "xml" then
        (renderTableRows (xmlResponseRecords r.bodyText), [])
      else
        match env.jsonParse with
        | .error _ => (table, [loadErrorMsg])
        | .ok v =>
            match renderTableJS v with
            | (t', true) => (t', [loadErrorMsg])
            | (t', false) => (t', [])

/-- An HTTP 500 whose JSON body parses to a non-array error object. -/
def c8Env : LoadEnv :=
  { fetchRes := .resp { ok := false, status := 500, bodyText := "\x7b\"error\":\"boom\"\x7d" },
    jsonParse := .ok .nonArray }

def c8PriorTable : List String := ["<tr><td>existing row</td></tr>"]

/-- C8 counterexample: a listing fetch answered by HTTP 500 with a JSON error
body does NOT leave the table in its prior state — `fetch` does not reject on
non-2xx, the body parses, and `renderTable` clears the table before throwing;
the prior row is gone (only the error message part of the claim holds). -/
theorem loadReservations_500_clears_table_counterexample :
    (loadReservations c8Env "json" c8PriorTable).1 = [] ∧
    (loadReservations c8Env "json" c8PriorTable).1 ≠ c8PriorTable ∧
    (loadReservations c8Env "json" c8PriorTable).2 = [loadErrorMsg] :=
  ⟨rfl, by decide, rfl⟩

/-- C8 (amended): when the listing fetch itself fails (network error — the
only case where `fetch` rejects) or the JSON body fails to parse, the table
is left in its prior state and a non-fatal error message is surfaced; but a
non-2xx response is not an exception: a JSON 500 body that parses as a
non-array reaches `renderTable`, which clears the table before the failure
surfaces. -/
theorem loadReservations_failure_frame (env : LoadEnv) (format : String)
    (table : List String) :
    (env.fetchRes = .netError →
      loadReservations env format table = (table, [loadErrorMsg])) ∧
    (∀ r m, env.fetchRes = .resp r → format ≠ "xml" → env.jsonParse = .error m →
      loadReservations env format table = (table, [loadErrorMsg])) ∧
    (∀ r, env.fetchRes = .resp r → format ≠ "xml" → env.jsonParse = .ok .nonArray →
      loadReservations env format table = ([], [loadErrorMsg])) := by
  refine ⟨?_, ?_, ?_⟩
  · intro h
    rw [loadReservations, h]
  · intro r m hr hfmt hj
    simp only [loadReservations, hr, hj]
    rw [if_neg (by simp [hfmt])]
  · intro r hr hfmt hj
    simp only [loadReservations, hr, hj, renderTableJS]
    rw [if_neg (by simp [hfmt])]

/-- Witness: a network error preserves a nonempty prior table and shows the
message. -/
theorem loadReservations_failure_frame_witness :
    loadReservations { fetchRes := .netError, jsonParse := .ok (.arr []) } "json"
        c8PriorTable = (c8PriorTable, [loadErrorMsg]) :=
  (loadReservations_failure_frame
    { fetchRes := .netError, jsonParse := .ok (.arr []) } "json" c8PriorTable).1 rfl

end ReservationClient
